import Mathlib

/-!
Verification of the anonymization engine of the HealthDataGateway repository
(`src/ai/anonymizer.py`).  The Python code is shallowly embedded: dictionaries
become association lists over a `Json` value type, in-place mutation becomes
explicit state passing, `random.randint` becomes an oracle threaded through the
state, and Python exceptions become `Except`.
-/

set_option maxRecDepth 10000

namespace HealthDataGateway

/-! ## SHA-256 (the `hashlib.sha256(...).hexdigest()` calls of the source) -/

namespace SHA256

/-- Truncate to a 32-bit word. -/
def w32 (x : Nat) : Nat := x % 4294967296

/-- Right rotation of a 32-bit word. -/
def rotr (n x : Nat) : Nat := w32 ((x >>> n) ||| (x <<< (32 - n)))

def bigSigma0 (x : Nat) : Nat := rotr 2 x ^^^ rotr 13 x ^^^ rotr 22 x
def bigSigma1 (x : Nat) : Nat := rotr 6 x ^^^ rotr 11 x ^^^ rotr 25 x
def smallSigma0 (x : Nat) : Nat := rotr 7 x ^^^ rotr 18 x ^^^ (x >>> 3)
def smallSigma1 (x : Nat) : Nat := rotr 17 x ^^^ rotr 19 x ^^^ (x >>> 10)
def ch (x y z : Nat) : Nat := (x &&& y) ^^^ ((x ^^^ 4294967295) &&& z)
def maj (x y z : Nat) : Nat := (x &&& y) ^^^ (x &&& z) ^^^ (y &&& z)

/-- The 64 round constants of FIPS 180-4. -/
def K : List Nat :=
  [1116352408, 1899447441, 3049323471, 3921009573,
   961987163, 1508970993, 2453635748, 2870763221,
   3624381080, 310598401, 607225278, 1426881987,
   1925078388, 2162078206, 2614888103, 3248222580,
   3835390401, 4022224774, 264347078, 604807628,
   770255983, 1249150122, 1555081692, 1996064986,
   2554220882, 2821834349, 2952996808, 3210313671,
   3336571891, 3584528711, 113926993, 338241895,
   666307205, 773529912, 1294757372, 1396182291,
   1695183700, 1986661051, 2177026350, 2456956037,
   2730485921, 2820302411, 3259730800, 3345764771,
   3516065817, 3600352804, 4094571909, 275423344,
   430227734, 506948616, 659060556, 883997877,
   958139571, 1322822218, 1537002063, 1747873779,
   1955562222, 2024104815, 2227730452, 2361852424,
   2428436474, 2756734187, 3204031479, 3329325298]

/-- The eight 32-bit words of the running hash state. -/
structure Hash8 where
  a : Nat
  b : Nat
  c : Nat
  d : Nat
  e : Nat
  f : Nat
  g : Nat
  h : Nat

def initH : Hash8 :=
  ⟨0x6a09e667, 0xbb67ae85, 0x3c6ef372, 0xa54ff53a,
   0x510e527f, 0x9b05688c, 0x1f83d9ab, 0x5be0cd19⟩

/-- Big-endian packing of bytes into 32-bit words. -/
def toWords : List Nat → List Nat
  | b0 :: b1 :: b2 :: b3 :: rest =>
      (((b0 * 256 + b1) * 256 + b2) * 256 + b3) :: toWords rest
  | _ => []

/-- Extend the 16 block words to the 64-entry message schedule. -/
def extend (ws : List Nat) : List Nat :=
  (List.range 48).foldl (fun acc _ =>
    let n := acc.length
    let x := w32 (smallSigma1 (acc.getD (n - 2) 0) + acc.getD (n - 7) 0 +
                  smallSigma0 (acc.getD (n - 15) 0) + acc.getD (n - 16) 0)
    acc ++ [x]) ws

def round (s : Hash8) (wk : Nat × Nat) : Hash8 :=
  let t1 := w32 (s.h + bigSigma1 s.e + ch s.e s.f s.g + wk.1 + wk.2)
  let t2 := w32 (bigSigma0 s.a + maj s.a s.b s.c)
  ⟨w32 (t1 + t2), s.a, s.b, s.c, w32 (s.d + t1), s.e, s.f, s.g⟩

def compressBlock (s : Hash8) (block : List Nat) : Hash8 :=
  let t := ((extend (toWords block)).zip K).foldl round s
  ⟨w32 (s.a + t.a), w32 (s.b + t.b), w32 (s.c + t.c), w32 (s.d + t.d),
   w32 (s.e + t.e), w32 (s.f + t.f), w32 (s.g + t.g), w32 (s.h + t.h)⟩

/-- The bit length of the message as the final eight big-endian bytes. -/
def lenBytes (n : Nat) : List Nat :=
  [n >>> 56 % 256, n >>> 48 % 256, n >>> 40 % 256, n >>> 32 % 256,
   n >>> 24 % 256, n >>> 16 % 256, n >>> 8 % 256, n % 256]

/-- FIPS 180-4 padding. -/
def pad (msg : List Nat) : List Nat :=
  let l := msg.length
  msg ++ [128] ++ List.replicate ((120 - ((l + 1) % 64)) % 64) 0 ++ lenBytes (8 * l)

/-- Cut the padded message into 64-byte blocks (fuel-based recursion). -/
def toBlocks : Nat → List Nat → List (List Nat)
  | 0, _ => []
  | _, [] => []
  | fuel + 1, l => l.take 64 :: toBlocks fuel (l.drop 64)

/-- UTF-8 encoding of one character (Python `str.encode()`). -/
def utf8Char (c : Char) : List Nat :=
  let n := c.toNat
  if n < 128 then [n]
  else if n < 2048 then [192 ||| (n >>> 6), 128 ||| (n &&& 63)]
  else if n < 65536 then
    [224 ||| (n >>> 12), 128 ||| ((n >>> 6) &&& 63), 128 ||| (n &&& 63)]
  else
    [240 ||| (n >>> 18), 128 ||| ((n >>> 12) &&& 63),
     128 ||| ((n >>> 6) &&& 63), 128 ||| (n &&& 63)]

def strBytes (s : String) : List Nat :=
  s.data.foldr (fun c acc => utf8Char c ++ acc) []

def wordBytes (w : Nat) : List Nat :=
  [w >>> 24 % 256, w >>> 16 % 256, w >>> 8 % 256, w % 256]

def digestBytes (s : Hash8) : List Nat :=
  wordBytes s.a ++ wordBytes s.b ++ wordBytes s.c ++ wordBytes s.d ++
  wordBytes s.e ++ wordBytes s.f ++ wordBytes s.g ++ wordBytes s.h

def hexChar (n : Nat) : Char :=
  if n < 10 then Char.ofNat (48 + n) else Char.ofNat (87 + n)

def byteHex (b : Nat) : List Char := [hexChar (b / 16), hexChar (b % 16)]

def bytesHex (bs : List Nat) : List Char :=
  bs.foldr (fun b acc => byteHex b ++ acc) []

end SHA256

/-- `hashlib.sha256(s.encode()).hexdigest()`. -/
def sha256hex (s : String) : String :=
  let bytes := SHA256.strBytes s
  let padded := SHA256.pad bytes
  let final := (SHA256.toBlocks padded.length padded).foldl SHA256.compressBlock SHA256.initH
  String.mk (SHA256.bytesHex (SHA256.digestBytes final))

/-! ## JSON values (the Python dictionaries the anonymizer manipulates)

Python dictionaries are insertion-ordered with unique keys, so objects are
association lists; assignment updates a present key in place and appends an
absent one. -/

inductive Json where
  | null : Json
  | str : String → Json
  | int : Int → Json
  | bool : Bool → Json
  | arr : List Json → Json
  | obj : List (String × Json) → Json

/-- Ordered-dictionary lookup. -/
def alookup {α : Type} : List (String × α) → String → Option α
  | [], _ => none
  | (k, v) :: rest, key => if k = key then some v else alookup rest key

/-- Ordered-dictionary assignment: update in place, or append a new key. -/
def aset {α : Type} : List (String × α) → String → α → List (String × α)
  | [], key, v => [(key, v)]
  | (k, w) :: rest, key, v =>
      if k = key then (k, v) :: rest else (k, w) :: aset rest key v

/-- Ordered-dictionary deletion (`del d[k]`, key known present). -/
def adel {α : Type} : List (String × α) → String → List (String × α)
  | [], _ => []
  | (k, w) :: rest, key => if k = key then rest else (k, w) :: adel rest key

/-- The Python exceptions the anonymizer can raise.  Messages are not
modelled; pathological shapes occasionally get a neighbouring tag (e.g. a
`KeyError` site rendered as `typeError`), which no claim distinguishes. -/
inductive PyErr where
  | typeError : PyErr
  | keyError : PyErr
  | attributeError : PyErr
  | valueError : PyErr
  | anonymizationError : PyErr → PyErr
deriving DecidableEq

/-- Python equality of a JSON value against a string literal (as in
`resource.get("resourceType") == "Patient"`). -/
def jsonEqStr (j : Json) (s : String) : Bool :=
  match j with
  | .str t => t == s
  | _ => false

/-- Python truthiness of a JSON value. -/
def pyTruthy : Json → Bool
  | .null => false
  | .str s => s != ""
  | .int n => n != 0
  | .bool b => b
  | .arr xs => !xs.isEmpty
  | .obj kvs => !kvs.isEmpty

mutual
/-- Python `repr` of a JSON value (escape sequences inside nested strings are
not modelled; no claim stringifies a container). -/
def pyRepr : Json → String
  | .null => "None"
  | .str s => "'" ++ s ++ "'"
  | .int n => toString n
  | .bool b => if b then "True" else "False"
  | .arr xs => "[" ++ String.intercalate ", " (pyReprList xs) ++ "]"
  | .obj kvs => "\x7b" ++ String.intercalate ", " (pyReprKVs kvs) ++ "\x7d"

def pyReprList : List Json → List String
  | [] => []
  | x :: xs => pyRepr x :: pyReprList xs

def pyReprKVs : List (String × Json) → List String
  | [] => []
  | (k, v) :: xs => ("'" ++ k ++ "': " ++ pyRepr v) :: pyReprKVs xs
end

/-- Python `str()`, as used by the f-strings of the source. -/
def pyStr (j : Json) : String :=
  match j with
  | .str s => s
  | _ => pyRepr j

/-- `x.get(k, dflt)`; `AttributeError` unless `x` is a dict. -/
def pyDictGet (j : Json) (k : String) (dflt : Json) : Except PyErr Json :=
  match j with
  | .obj kvs => .ok ((alookup kvs k).getD dflt)
  | _ => .error .attributeError

/-- Substring test, for Python `needle in haystack` on strings. -/
def pySubstr (needle hay : String) : Bool :=
  needle = "" || (hay.splitOn needle).length ≥ 2

/-- Python `k in x`: key test on dicts, substring test on strings, membership
on lists; `TypeError` otherwise. -/
def pyContains (j : Json) (k : String) : Except PyErr Bool :=
  match j with
  | .obj kvs => .ok (alookup kvs k).isSome
  | .str s => .ok (pySubstr k s)
  | .arr xs => .ok (xs.any (fun x => jsonEqStr x k))
  | _ => .error .typeError

/-- Python `x[k]` with a string key. -/
def pyGetItem (j : Json) (k : String) : Except PyErr Json :=
  match j with
  | .obj kvs =>
      match alookup kvs k with
      | some v => .ok v
      | none => .error .keyError
  | _ => .error .typeError

/-- Python `x[k] = v` with a string key. -/
def pySetItem (j : Json) (k : String) (v : Json) : Except PyErr Json :=
  match j with
  | .obj kvs => .ok (.obj (aset kvs k v))
  | _ => .error .typeError

/-- Python `del x[k]` with a string key. -/
def pyDelItem (j : Json) (k : String) : Except PyErr Json :=
  match j with
  | .obj kvs =>
      if (alookup kvs k).isSome then .ok (.obj (adel kvs k)) else .error .keyError
  | _ => .error .typeError

/-- Python iteration: list elements, string characters, dict keys;
`TypeError` otherwise. -/
def pyIter (j : Json) : Except PyErr (List Json) :=
  match j with
  | .arr xs => .ok xs
  | .str s => .ok (s.data.map (fun c => Json.str (String.mk [c])))
  | .obj kvs => .ok (kvs.map (fun kv => Json.str kv.1))
  | _ => .error .typeError

/-! ## Dates (`datetime.strptime/strftime/`​`timedelta`, format `%Y-%m-%d`) -/

structure PyDate where
  year : Int
  month : Nat
  day : Nat
deriving DecidableEq

def isLeap (y : Int) : Bool := (y % 4 == 0 && y % 100 != 0) || y % 400 == 0

def daysInMonth (y : Int) (m : Nat) : Nat :=
  if m = 2 then (if isLeap y then 29 else 28)
  else if m = 4 ∨ m = 6 ∨ m = 9 ∨ m = 11 then 30
  else 31

/-- Candidate matches of CPython's `%m` pattern `1[0-2]|0[1-9]|[1-9]`, in
alternation order, as (value, unconsumed characters). -/
def monthMatches : List Char → List (Nat × List Char)
  | c1 :: c2 :: rest =>
      (if c1 = '1' ∧ '0' ≤ c2 ∧ c2 ≤ '2' then [(10 + (c2.toNat - 48), rest)] else []) ++
      (if c1 = '0' ∧ '1' ≤ c2 ∧ c2 ≤ '9' then [(c2.toNat - 48, rest)] else []) ++
      (if '1' ≤ c1 ∧ c1 ≤ '9' then [(c1.toNat - 48, c2 :: rest)] else [])
  | [c1] => if '1' ≤ c1 ∧ c1 ≤ '9' then [(c1.toNat - 48, [])] else []
  | [] => []

/-- Candidate matches of CPython's `%d` pattern `3[01]|[12]\d|0[1-9]|[1-9]`. -/
def dayMatches : List Char → List (Nat × List Char)
  | c1 :: c2 :: rest =>
      (if c1 = '3' ∧ (c2 = '0' ∨ c2 = '1') then [(30 + (c2.toNat - 48), rest)] else []) ++
      (if (c1 = '1' ∨ c1 = '2') ∧ c2.isDigit then
        [((c1.toNat - 48) * 10 + (c2.toNat - 48), rest)] else []) ++
      (if c1 = '0' ∧ '1' ≤ c2 ∧ c2 ≤ '9' then [(c2.toNat - 48, rest)] else []) ++
      (if '1' ≤ c1 ∧ c1 ≤ '9' then [(c1.toNat - 48, c2 :: rest)] else [])
  | [c1] => if '1' ≤ c1 ∧ c1 ≤ '9' then [(c1.toNat - 48, [])] else []
  | [] => []

def firstOk {α β : Type} (f : α → Option β) : List α → Option β
  | [] => none
  | x :: xs => match f x with | some y => some y | none => firstOk f xs

/-- The month-day half of the pattern: `%m`, a literal `-`, then `%d`, with
the whole remaining input consumed. -/
def mdParse (rest : List Char) : Option (Nat × Nat) :=
  firstOk (fun md =>
    match md.2 with
    | '-' :: rest3 =>
        firstOk (fun dd => if dd.2 = ([] : List Char) then some (md.1, dd.1) else none)
          (dayMatches rest3)
    | _ => none) (monthMatches rest)

/-- `datetime.strptime(s, "%Y-%m-%d")`: CPython compiles `%Y` to exactly four
digits, `%m`/`%d` to the alternations above (with regex backtracking), demands
the whole string be consumed, and the `datetime` constructor rejects year 0 and
a day beyond the month length. -/
def strptimeYmd (s : String) : Except PyErr PyDate :=
  match s.data with
  | y1 :: y2 :: y3 :: y4 :: '-' :: rest =>
      if y1.isDigit ∧ y2.isDigit ∧ y3.isDigit ∧ y4.isDigit then
        let y : Int := Int.ofNat ((((y1.toNat - 48) * 10 + (y2.toNat - 48)) * 10 +
                                   (y3.toNat - 48)) * 10 + (y4.toNat - 48))
        match mdParse rest with
        | some (m, d) =>
            if y = 0 then .error .valueError
            else if d ≤ daysInMonth y m then .ok ⟨y, m, d⟩
            else .error .valueError
        | none => .error .valueError
      else .error .valueError
  | _ => .error .valueError

def nextDay (d : PyDate) : PyDate :=
  if d.day < daysInMonth d.year d.month then ⟨d.year, d.month, d.day + 1⟩
  else if d.month < 12 then ⟨d.year, d.month + 1, 1⟩
  else ⟨d.year + 1, 1, 1⟩

def prevDay (d : PyDate) : PyDate :=
  if 1 < d.day then ⟨d.year, d.month, d.day - 1⟩
  else if 1 < d.month then ⟨d.year, d.month - 1, daysInMonth d.year (d.month - 1)⟩
  else ⟨d.year - 1, 12, 31⟩

/-- `date + timedelta(days = k)` as an iterated calendar successor (the
`OverflowError` past year 9999 is not modelled; it only makes the source fail
on inputs our success-conditioned theorems already exclude). -/
def addDays (d : PyDate) (k : Int) : PyDate :=
  match k with
  | .ofNat n => nextDay^[n] d
  | .negSucc n => prevDay^[n + 1] d

/-- `date.replace(year := y)`: `ValueError` when the day is invalid in the new
year (Feb 29 to a non-leap year). -/
def replaceYear (d : PyDate) (y : Int) : Except PyErr PyDate :=
  if d.day ≤ daysInMonth y d.month then .ok ⟨y, d.month, d.day⟩
  else .error .valueError

def pad2 (n : Nat) : String := if n < 10 then "0" ++ toString n else toString n

/-- `date.strftime("%Y-%m-%d")` (CPython on glibc prints the year unpadded). -/
def strftimeYmd (d : PyDate) : String :=
  toString d.year ++ "-" ++ pad2 d.month ++ "-" ++ pad2 d.day

/-- The invariant every constructed `datetime.date` satisfies. -/
def validDate (d : PyDate) : Prop :=
  1 ≤ d.month ∧ d.month ≤ 12 ∧ 1 ≤ d.day ∧ d.day ≤ daysInMonth d.year d.month

/-- Number of pairs of an association list carrying a given key (a list built
from a Python dict carries each key at most once). -/
def countKey {α : Type} : List (String × α) → String → Nat
  | [], _ => 0
  | p :: ps, k => (if p.1 = k then 1 else 0) + countKey ps k

/-! ## The `Anonymizer` instance state -/

/-- The fields set by `Anonymizer.__init__` plus an oracle for
`random.randint`: draw number `n` of `randint(a, b)` is `a + (rng n) mod
(b - a + 1)`, so draws always lie in `[a, b]` and every value in the range is
reachable.  The `salt = None` branch (fresh `uuid4`) is not modelled: every
claim fixes the salt. -/
structure AnonState where
  salt : String
  preserve_age : Bool
  preserve_gender : Bool
  pii_lookup : List (String × String)
  rng : Nat → Int
  rngIdx : Nat

/-- `Anonymizer(salt=salt, preserve_age=..., preserve_gender=...)`. -/
def mkAnonymizer (salt : String) (preserve_age preserve_gender : Bool)
    (rng : Nat → Int) : AnonState :=
  ⟨salt, preserve_age, preserve_gender, [], rng, 0⟩

/-- `random.randint(lo, hi)` via the oracle. -/
def randint (lo hi : Int) (st : AnonState) : Int × AnonState :=
  (lo + (st.rng st.rngIdx).emod (hi - lo + 1), { st with rngIdx := st.rngIdx + 1 })

/-- Python string slicing `s[:n]` (strings are sequences of code points,
exactly the `data` of a Lean `String`). -/
def strTake (s : String) (n : Nat) : String := String.mk (s.data.take n)

/-- Python string slicing `s[n:]`. -/
def strDrop (s : String) (n : Nat) : String := String.mk (s.data.drop n)

/-- `Anonymizer._anonymize_identifier`.  The argument is stringified by the
caller (`pyStr`), matching the f-strings `f"{pii_type}:{identifier}"` and
`f"{self.salt}:{identifier}"` of the source. -/
def anonymize_identifier (st : AnonState) (identifier : String) (pii_type : String) :
    String × AnonState :=
  let key := pii_type ++ ":" ++ identifier
  match alookup st.pii_lookup key with
  | some v => (v, st)
  | none =>
    let p : String × AnonState :=
      if pii_type = "NAME" then
        ("Person-" ++ strTake (sha256hex (st.salt ++ ":" ++ identifier)) 8, st)
      else if pii_type = "ID" then
        ("ID-" ++ strTake (sha256hex (st.salt ++ ":" ++ identifier)) 12, st)
      else if pii_type = "DOB" then
        -- the whole branch sits in a bare `try`, so any failure after the
        -- parse also falls back to the hash substitution
        match strptimeYmd identifier with
        | .ok original_date =>
            let r := randint (-30) 30 st
            let new_date := addDays original_date r.1
            if new_date.year = original_date.year then (strftimeYmd new_date, r.2)
            else
              match replaceYear new_date original_date.year with
              | .ok nd => (strftimeYmd nd, r.2)
              | .error _ =>
                  ("Date-" ++ strTake (sha256hex (r.2.salt ++ ":" ++ identifier)) 8, r.2)
        | .error _ =>
            ("Date-" ++ strTake (sha256hex (st.salt ++ ":" ++ identifier)) 8, st)
      else if pii_type = "ADDRESS" then
        ("Address-" ++ strTake (sha256hex (st.salt ++ ":" ++ identifier)) 8, st)
      else if pii_type = "PHONE" then
        let hash_val := sha256hex (st.salt ++ ":" ++ identifier)
        ("555-" ++ strTake hash_val 3 ++ "-" ++ strTake (strDrop hash_val 3) 4, st)
      else if pii_type = "EMAIL" then
        ("person." ++ strTake (sha256hex (st.salt ++ ":" ++ identifier)) 8 ++ "@example.com", st)
      else if pii_type = "SSN" then
        ("XXX-XX-" ++ strTake (sha256hex (st.salt ++ ":" ++ identifier)) 4, st)
      else
        ("Anon-" ++ strTake (sha256hex (st.salt ++ ":" ++ identifier)) 8, st)
    (p.1, { p.2 with pii_lookup := aset p.2.pii_lookup key p.1 })

/-! ## Resource-level anonymization, `anonymize_fhir` path

The Python helpers mutate resources in place and return `None`; the embedding
returns the updated resource.  Loop-and-mutate blocks become `forEachItem`:
iterate the container, transform each element, and write the element list back
when the container is a Python list (for a string or dict container the
elements are immutable strings, which every transformer either skips or fails
on, exactly as the source would). -/

/-- Thread the state through an element-wise transformation. -/
def mapItems (f : AnonState → Json → Except PyErr (Json × AnonState)) :
    AnonState → List Json → Except PyErr (List Json × AnonState)
  | st, [] => .ok ([], st)
  | st, x :: xs => do
    let r ← f st x
    let rs ← mapItems f r.2 xs
    return (r.1 :: rs.1, rs.2)

/-- The recurring block `if key in d: for x in d[key]: <mutate x>`. -/
def forEachItem (f : AnonState → Json → Except PyErr (Json × AnonState))
    (st : AnonState) (d : Json) (key : String) : Except PyErr (Json × AnonState) := do
  if (← pyContains d key) then
    let container ← pyGetItem d key
    let items ← pyIter container
    let r ← mapItems f st items
    match container with
    | .arr _ => do
        let d ← pySetItem d key (.arr r.1)
        return (d, r.2)
    | _ => return (d, r.2)
  else return (d, st)

/-- The recurring statement `d[key] = self._anonymize_identifier(d[key], kind)`
guarded by `if key in d`. -/
def anonField (pii_type key : String) (st : AnonState) (d : Json) :
    Except PyErr (Json × AnonState) := do
  if (← pyContains d key) then
    let v ← pyGetItem d key
    let q := anonymize_identifier st (pyStr v) pii_type
    let d ← pySetItem d key (.str q.1)
    return (d, q.2)
  else return (d, st)

/-- List comprehension `[self._anonymize_identifier(x, kind) for x in xs]`. -/
def anonStrList (pii_type : String) : AnonState → List Json → List Json × AnonState
  | st, [] => ([], st)
  | st, x :: xs =>
    let r := anonymize_identifier st (pyStr x) pii_type
    let rs := anonStrList pii_type r.2 xs
    (Json.str r.1 :: rs.1, rs.2)

/-- The recurring statement
`d[key] = [self._anonymize_identifier(x, kind) for x in d.get(key, [])]`
guarded by `if key in d`. -/
def anonListField (pii_type key : String) (st : AnonState) (d : Json) :
    Except PyErr (Json × AnonState) := do
  if (← pyContains d key) then
    let g ← pyDictGet d key (Json.arr [])
    let items ← pyIter g
    let q := anonStrList pii_type st items
    let d ← pySetItem d key (.arr q.1)
    return (d, q.2)
  else return (d, st)

/-- `Anonymizer._anonymize_patient` lines 229-235: anonymize the patient id and
record the reference rewrite `"Patient/{old}" -> "Patient/{new}"`. -/
def patientIdBlock (st : AnonState) (patient : Json) : Except PyErr (Json × AnonState) := do
  let original_id ← pyDictGet patient "id" Json.null
  if pyTruthy original_id then
    let r := anonymize_identifier st (pyStr original_id) "ID"
    let patient ← pySetItem patient "id" (.str r.1)
    let newId ← pyGetItem patient "id"
    let st : AnonState :=
      { r.2 with pii_lookup := aset r.2.pii_lookup ("Patient/" ++ pyStr original_id)
                                    ("Patient/" ++ pyStr newId) }
    return (patient, st)
  else
    return (patient, st)

/-- One `name` element of `_anonymize_patient`: `given` (list comprehension),
then `family`, then `text`, all kind NAME. -/
def fhirNameItem (st : AnonState) (name : Json) : Except PyErr (Json × AnonState) := do
  let (name, st) ← anonListField "NAME" "given" st name
  let (name, st) ← anonField "NAME" "family" st name
  anonField "NAME" "text" st name

/-- One `telecom` element of `_anonymize_patient`: dispatch on `system`;
only `"phone"` and `"email"` are handled in this method. -/
def fhirTelecomItem (st : AnonState) (telecom : Json) : Except PyErr (Json × AnonState) := do
  let system ← pyDictGet telecom "system" Json.null
  if jsonEqStr system "phone" then do
    if (← pyContains telecom "value") then do
      let v ← pyGetItem telecom "value"
      let q := anonymize_identifier st (pyStr v) "PHONE"
      let telecom ← pySetItem telecom "value" (.str q.1)
      return (telecom, q.2)
    else return (telecom, st)
  else if jsonEqStr system "email" then do
    if (← pyContains telecom "value") then do
      let v ← pyGetItem telecom "value"
      let q := anonymize_identifier st (pyStr v) "EMAIL"
      let telecom ← pySetItem telecom "value" (.str q.1)
      return (telecom, q.2)
    else return (telecom, st)
  else return (telecom, st)

/-- `_anonymize_patient` lines 266-282: the `birthDate` transformation.  Note
that `datetime.strptime` sits outside any `try`, so a parse failure escapes. -/
def patientBirthDateBlock (st : AnonState) (patient : Json) :
    Except PyErr (Json × AnonState) := do
  let hasBD ← pyContains patient "birthDate"
  if hasBD && st.preserve_age then do
    let bd ← pyGetItem patient "birthDate"
    let s ← match bd with
            | .str s => Except.ok s
            | _ => Except.error PyErr.typeError  -- strptime demands a str
    let original_date ← strptimeYmd s
    let r := randint (-30) 30 st
    let new_date := addDays original_date r.1
    let new_date ←
      if new_date.year ≠ original_date.year then replaceYear new_date original_date.year
      else pure new_date
    let patient ← pySetItem patient "birthDate" (.str (strftimeYmd new_date))
    return (patient, r.2)
  else if hasBD && !st.preserve_age then do
    let patient ← pyDelItem patient "birthDate"
    return (patient, st)
  else return (patient, st)

/-- One `address` element of `_anonymize_patient`: `line` (comprehension),
`city`, `postalCode`, all kind ADDRESS. -/
def fhirAddressItem (st : AnonState) (address : Json) : Except PyErr (Json × AnonState) := do
  let (address, st) ← anonListField "ADDRESS" "line" st address
  let (address, st) ← anonField "ADDRESS" "city" st address
  anonField "ADDRESS" "postalCode" st address

/-- `Anonymizer._anonymize_patient`. -/
def anonymize_patient (st : AnonState) (patient : Json) : Except PyErr (Json × AnonState) := do
  let (patient, st) ← patientIdBlock st patient
  let (patient, st) ← forEachItem (anonField "ID" "value") st patient "identifier"
  let (patient, st) ← forEachItem fhirNameItem st patient "name"
  let (patient, st) ← forEachItem fhirTelecomItem st patient "telecom"
  let (patient, st) ← patientBirthDateBlock st patient
  forEachItem fhirAddressItem st patient "address"

/-- Python `ref in self.pii_lookup` (a string-keyed dict): lists and dicts are
unhashable (`TypeError`); other non-strings simply miss. -/
def vaultContains (st : AnonState) (ref : Json) : Except PyErr Bool :=
  match ref with
  | .str s => .ok (alookup st.pii_lookup s).isSome
  | .arr _ => .error .typeError
  | .obj _ => .error .typeError
  | _ => .ok false

/-- `self.pii_lookup[ref]`, reached only after a successful `in` test. -/
def vaultGet (st : AnonState) (ref : Json) : Except PyErr String :=
  match ref with
  | .str s =>
      match alookup st.pii_lookup s with
      | some v => .ok v
      | none => .error .keyError
  | _ => .error .keyError

/-- The recurring block rewriting `d["reference"]` through the vault. -/
def refRewriteItem (st : AnonState) (d : Json) : Except PyErr (Json × AnonState) := do
  if (← pyContains d "reference") then do
    let original_ref ← pyGetItem d "reference"
    if (← vaultContains st original_ref) then do
      let v ← vaultGet st original_ref
      let d ← pySetItem d "reference" (.str v)
      return (d, st)
    else return (d, st)
  else return (d, st)

/-- The recurring block `if "subject" in r and "reference" in r["subject"]:`
rewriting the subject reference through the vault. -/
def subjectRefBlock (st : AnonState) (resource : Json) : Except PyErr (Json × AnonState) := do
  if (← pyContains resource "subject") then do
    let subject ← pyGetItem resource "subject"
    if (← pyContains subject "reference") then do
      let original_ref ← pyGetItem subject "reference"
      if (← vaultContains st original_ref) then do
        let v ← vaultGet st original_ref
        let subject ← pySetItem subject "reference" (.str v)
        let resource ← pySetItem resource "subject" subject
        return (resource, st)
      else return (resource, st)
    else return (resource, st)
  else return (resource, st)

/-- `Anonymizer._anonymize_observation`. -/
def anonymize_observation (st : AnonState) (observation : Json) :
    Except PyErr (Json × AnonState) := do
  let (observation, st) ← anonField "ID" "id" st observation
  let (observation, st) ← subjectRefBlock st observation
  forEachItem refRewriteItem st observation "performer"

/-- `_anonymize_medication_statement` lines 332-340: `informationSource`. -/
def infoSourceBlock (st : AnonState) (med : Json) : Except PyErr (Json × AnonState) := do
  if (← pyContains med "informationSource") then do
    let info_source ← pyGetItem med "informationSource"
    if (← pyContains info_source "reference") then do
      let original_ref ← pyGetItem info_source "reference"
      if (← vaultContains st original_ref) then do
        let info ← pySetItem info_source "reference" (.str (← vaultGet st original_ref))
        let med ← pySetItem med "informationSource" info
        return (med, st)
      else return (med, st)
    else do
      if (← pyContains info_source "display") then do
        let v ← pyGetItem info_source "display"
        let q := anonymize_identifier st (pyStr v) "NAME"
        let info ← pySetItem info_source "display" (.str q.1)
        let med ← pySetItem med "informationSource" info
        return (med, q.2)
      else return (med, st)
  else return (med, st)

/-- `Anonymizer._anonymize_medication_statement`. -/
def anonymize_medication_statement (st : AnonState) (med_statement : Json) :
    Except PyErr (Json × AnonState) := do
  let (med_statement, st) ← anonField "ID" "id" st med_statement
  let (med_statement, st) ← subjectRefBlock st med_statement
  infoSourceBlock st med_statement

/-- One `participant` element of `_anonymize_encounter`. -/
def participantItem (st : AnonState) (participant : Json) :
    Except PyErr (Json × AnonState) := do
  if (← pyContains participant "individual") then do
    let individual ← pyGetItem participant "individual"
    if (← pyContains individual "reference") then do
      let original_ref ← pyGetItem individual "reference"
      if (← vaultContains st original_ref) then do
        let ind ← pySetItem individual "reference" (.str (← vaultGet st original_ref))
        let participant ← pySetItem participant "individual" ind
        return (participant, st)
      else return (participant, st)
    else return (participant, st)
  else return (participant, st)

/-- `Anonymizer._anonymize_encounter`. -/
def anonymize_encounter (st : AnonState) (encounter : Json) :
    Except PyErr (Json × AnonState) := do
  let (encounter, st) ← anonField "ID" "id" st encounter
  let (encounter, st) ← subjectRefBlock st encounter
  forEachItem participantItem st encounter "participant"

/-- One iteration of the entry loop of `anonymize_fhir`: fetch the resource
(default `{}`), dispatch on `resourceType`, and reflect the in-place mutation
back into the entry. -/
def processEntry (st : AnonState) (entry : Json) : Except PyErr (Json × AnonState) := do
  let resource ← pyDictGet entry "resource" (Json.obj [])
  let resource_type ← pyDictGet resource "resourceType" Json.null
  let r ←
    if jsonEqStr resource_type "Patient" then anonymize_patient st resource
    else if jsonEqStr resource_type "Observation" then anonymize_observation st resource
    else if jsonEqStr resource_type "MedicationStatement" then
      anonymize_medication_statement st resource
    else if jsonEqStr resource_type "Encounter" then anonymize_encounter st resource
    else pure (resource, st)
  match entry with
  | .obj kvs =>
      if (alookup kvs "resource").isSome then
        return (.obj (aset kvs "resource" r.1), r.2)
      else return (entry, r.2)
  | _ => return (entry, r.2)

def processEntries : AnonState → List Json → Except PyErr (List Json × AnonState)
  | st, [] => .ok ([], st)
  | st, e :: es => do
    let r ← processEntry st e
    let rs ← processEntries r.2 es
    return (r.1 :: rs.1, rs.2)

/-- `Anonymizer.anonymize_fhir`.  The `json.loads(json.dumps(...))` roundtrip
is the identity on `Json` values; any inner exception is wrapped in
`AnonymizationError`. -/
def anonymize_fhir (st : AnonState) (fhir_bundle : Json) :
    Except PyErr (Json × AnonState) :=
  let inner : Except PyErr (Json × AnonState) := do
    let entryVal ← pyDictGet fhir_bundle "entry" (Json.arr [])
    let entries ← pyIter entryVal
    let r ← processEntries st entries
    match fhir_bundle with
    | .obj kvs =>
        match alookup kvs "entry" with
        | some (.arr _) => return (.obj (aset kvs "entry" (.arr r.1)), r.2)
        | _ => return (fhir_bundle, r.2)
    | _ => return (fhir_bundle, r.2)
  match inner with
  | .ok v => .ok v
  | .error e => .error (.anonymizationError e)

/-! ## Resource-level anonymization, `anonymize` path -/

/-- `Anonymizer._anonymize_pii`: its body is only the vault reset
`self.pii_lookup = {}`; having no `return`, it returns `None`. -/
def anonymize_pii (st : AnonState) (_identifier : Json) (_pii_type : String) :
    Json × AnonState :=
  (Json.null, { st with pii_lookup := [] })

/-- `d[key] = self._anonymize_pii(d[key], kind)` guarded by `if key in d`. -/
def piiField (pii_type key : String) (st : AnonState) (d : Json) :
    Except PyErr (Json × AnonState) := do
  if (← pyContains d key) then
    let v ← pyGetItem d key
    let q := anonymize_pii st v pii_type
    let d ← pySetItem d key q.1
    return (d, q.2)
  else return (d, st)

/-- Elementwise `_anonymize_pii` over a list (the `given`/`line` loops). -/
def piiList (pii_type : String) : AnonState → List Json → List Json × AnonState
  | st, [] => ([], st)
  | st, x :: xs =>
    let r := anonymize_pii st x pii_type
    let rs := piiList pii_type r.2 xs
    (r.1 :: rs.1, rs.2)

/-- `if key in d and isinstance(d[key], list): <replace each element>`. -/
def piiListField (pii_type key : String) (st : AnonState) (d : Json) :
    Except PyErr (Json × AnonState) := do
  if (← pyContains d key) then do
    let g ← pyGetItem d key
    match g with
    | .arr xs =>
        let q := piiList pii_type st xs
        let d ← pySetItem d key (.arr q.1)
        return (d, q.2)
    | _ => return (d, st)
  else return (d, st)

/-- One `name` element of `_anonymize_resource` (order: `text`, `family`,
`given`-with-`isinstance`). -/
def resNameItem (st : AnonState) (name : Json) : Except PyErr (Json × AnonState) := do
  let (name, st) ← piiField "NAME" "text" st name
  let (name, st) ← piiField "NAME" "family" st name
  piiListField "NAME" "given" st name

/-- One `telecom` element of `_anonymize_resource` (`value` guard outside the
`system` dispatch; unrecognized systems fall back to kind ID). -/
def resTelecomItem (st : AnonState) (telecom : Json) : Except PyErr (Json × AnonState) := do
  if (← pyContains telecom "value") then do
    let system ← pyDictGet telecom "system" Json.null
    if jsonEqStr system "phone" then do
      let v ← pyGetItem telecom "value"
      let q := anonymize_pii st v "PHONE"
      let telecom ← pySetItem telecom "value" q.1
      return (telecom, q.2)
    else if jsonEqStr system "email" then do
      let v ← pyGetItem telecom "value"
      let q := anonymize_pii st v "EMAIL"
      let telecom ← pySetItem telecom "value" q.1
      return (telecom, q.2)
    else do
      let v ← pyGetItem telecom "value"
      let q := anonymize_pii st v "ID"
      let telecom ← pySetItem telecom "value" q.1
      return (telecom, q.2)
  else return (telecom, st)

/-- One `address` element of `_anonymize_resource` (`text`, then
`line`-with-`isinstance`). -/
def resAddressItem (st : AnonState) (address : Json) : Except PyErr (Json × AnonState) := do
  let (address, st) ← piiField "ADDRESS" "text" st address
  piiListField "ADDRESS" "line" st address

/-- `_anonymize_resource` lines 117-121: the `birthDate` rule of the
`anonymize` path (no date parsing; the value is routed through
`_anonymize_pii` or the key deleted). -/
def resBirthDateBlock (st : AnonState) (resource : Json) :
    Except PyErr (Json × AnonState) := do
  let hasBD ← pyContains resource "birthDate"
  if hasBD && st.preserve_age then do
    let v ← pyGetItem resource "birthDate"
    let q := anonymize_pii st v "DOB"
    let resource ← pySetItem resource "birthDate" q.1
    return (resource, q.2)
  else if hasBD && !st.preserve_age then do
    let resource ← pyDelItem resource "birthDate"
    return (resource, st)
  else return (resource, st)

/-- The security tag appended by `_anonymize_resource`. -/
def securityTag : Json :=
  Json.obj [("system", .str "http://healthdatagateway.org/security"),
            ("code", .str "anonymized"),
            ("display", .str "Anonymized Data")]

/-- `_anonymize_resource` lines 166-177: ensure `meta.security` exists and
append the anonymization marker. -/
def metaBlock (resource : Json) : Except PyErr Json := do
  let hasMeta ← pyContains resource "meta"
  let resource ← if hasMeta then pure resource else pySetItem resource "meta" (Json.obj [])
  let metaVal ← pyGetItem resource "meta"
  let hasSec ← pyContains metaVal "security"
  let resource ←
    if hasSec then pure resource
    else do
      let metaVal ← pySetItem metaVal "security" (Json.arr [])
      pySetItem resource "meta" metaVal
  let metaVal ← pyGetItem resource "meta"
  let secVal ← pyGetItem metaVal "security"
  match secVal with
  | .arr xs => do
      let metaVal ← pySetItem metaVal "security" (.arr (xs ++ [securityTag]))
      pySetItem resource "meta" metaVal
  | _ => .error .attributeError  -- .append on a non-list

/-- `Anonymizer._anonymize_resource`. -/
def anonymize_resource (st : AnonState) (resource : Json) :
    Except PyErr (Json × AnonState) := do
  let resource_type ← pyDictGet resource "resourceType" Json.null
  let (resource, st) ←
    if jsonEqStr resource_type "Patient" then do
      let (resource, st) ← forEachItem (piiField "ID" "value") st resource "identifier"
      let (resource, st) ← forEachItem resNameItem st resource "name"
      let (resource, st) ← resBirthDateBlock st resource
      let (resource, st) ← forEachItem resTelecomItem st resource "telecom"
      forEachItem resAddressItem st resource "address"
    else if jsonEqStr resource_type "Practitioner" ||
            jsonEqStr resource_type "RelatedPerson" ||
            jsonEqStr resource_type "Person" then do
      let (resource, st) ← forEachItem (piiField "ID" "value") st resource "identifier"
      forEachItem resNameItem st resource "name"
    else pure (resource, st)
  let (resource, st) ← piiField "ID" "id" st resource
  let resource ← metaBlock resource
  return (resource, st)

/-- One iteration of the bundle loop of `anonymize`. -/
def anonymizeBundleEntries : AnonState → List Json → Except PyErr (List Json × AnonState)
  | st, [] => .ok ([], st)
  | st, entry :: rest => do
    let r ←
      if (← pyContains entry "resource") then do
        let res ← pyGetItem entry "resource"
        let q ← anonymize_resource st res
        let entry ← pySetItem entry "resource" q.1
        pure (entry, q.2)
      else pure (entry, st)
    let rs ← anonymizeBundleEntries r.2 rest
    return (r.1 :: rs.1, rs.2)

/-- `Anonymizer.anonymize` (the `copy.deepcopy` is the identity on values). -/
def anonymize (st : AnonState) (data : Json) : Except PyErr (Json × AnonState) := do
  let b1 ← pyContains data "resourceType"
  let isBundle ←
    if b1 then do
      let rt ← pyGetItem data "resourceType"
      if jsonEqStr rt "Bundle" then pyContains data "entry" else pure false
    else pure false
  if isBundle then do
    let entryVal ← pyGetItem data "entry"
    let items ← pyIter entryVal
    let r ← anonymizeBundleEntries st items
    match data, entryVal with
    | .obj kvs, .arr _ => return (.obj (aset kvs "entry" (.arr r.1)), r.2)
    | _, _ => return (data, r.2)
  else
    anonymize_resource st data

/-! ## Claim-side definitions -/

/-- The canonical NAME substitution `"Person-" + digest[:8]`. -/
def nameAnonVal (salt x : String) : String :=
  "Person-" ++ strTake (sha256hex (salt ++ ":" ++ x)) 8

/-- The canonical ID substitution `"ID-" + digest[:12]`. -/
def idAnonVal (salt x : String) : String :=
  "ID-" ++ strTake (sha256hex (salt ++ ":" ++ x)) 12

/-- The canonical ADDRESS substitution `"Address-" + digest[:8]`. -/
def addressAnonVal (salt x : String) : String :=
  "Address-" ++ strTake (sha256hex (salt ++ ":" ++ x)) 8

/-- The canonical PHONE substitution `"555-" + digest[:3] + "-" + digest[3:7]`. -/
def phoneAnonVal (salt x : String) : String :=
  "555-" ++ strTake (sha256hex (salt ++ ":" ++ x)) 3 ++ "-" ++
    strTake (strDrop (sha256hex (salt ++ ":" ++ x)) 3) 4

/-- The canonical EMAIL substitution `"person." + digest[:8] + "@example.com"`. -/
def emailAnonVal (salt x : String) : String :=
  "person." ++ strTake (sha256hex (salt ++ ":" ++ x)) 8 ++ "@example.com"

/-- The canonical SSN substitution `"XXX-XX-" + digest[:4]`. -/
def ssnAnonVal (salt x : String) : String :=
  "XXX-XX-" ++ strTake (sha256hex (salt ++ ":" ++ x)) 4

/-- The all-decimal-digit reading of the `555-XXX-XXXX` pattern, as claim C9
states it. -/
def phoneAllDigits (s : String) : Bool :=
  match s.data with
  | '5' :: '5' :: '5' :: '-' :: a :: b :: c :: '-' :: d :: e :: f :: g :: [] =>
      a.isDigit && b.isDigit && c.isDigit && d.isDigit && e.isDigit && f.isDigit && g.isDigit
  | _ => false

/-- Lowercase hexadecimal digits, the alphabet of `hexdigest()`. -/
def isHexLower (c : Char) : Bool := c.isDigit || ('a' ≤ c && c ≤ 'f')

/-- Pure field access on a JSON object, for stating properties of outputs. -/
def jGet? (j : Json) (k : String) : Option Json :=
  match j with
  | .obj kvs => alookup kvs k
  | _ => none

/-- Concrete Patient resource used as a witness input for the `anonymize`
path. -/
def c3kvs : List (String × Json) :=
  [("resourceType", .str "Patient"), ("id", .str "p1"),
   ("identifier", .arr [.obj [("value", .str "MRN1")]]),
   ("name", .arr [.obj [("text", .str "Jane"), ("family", .str "S"),
     ("given", .arr [.str "J"])]]),
   ("telecom", .arr [.obj [("system", .str "phone"), ("value", .str "555")]]),
   ("address", .arr [.obj [("text", .str "A"), ("line", .arr [.str "L1"])]]),
   ("birthDate", .str "1982-05-25")]

/-- The output `Anonymizer.anonymize` produces on `c3kvs`: every routed field
is `None` and a `meta.security` marker is appended. -/
def c3expected : Json :=
  Json.obj [("resourceType", .str "Patient"), ("id", Json.null),
    ("identifier", .arr [.obj [("value", Json.null)]]),
    ("name", .arr [.obj [("text", Json.null), ("family", Json.null),
      ("given", .arr [Json.null])]]),
    ("telecom", .arr [.obj [("system", .str "phone"), ("value", Json.null)]]),
    ("address", .arr [.obj [("text", Json.null), ("line", .arr [Json.null])]]),
    ("birthDate", Json.null),
    ("meta", .obj [("security", .arr [Json.obj
      [("system", .str "http://healthdatagateway.org/security"),
       ("code", .str "anonymized"),
       ("display", .str "Anonymized Data")]])])]

/-- The four resource kinds `anonymize_fhir` dispatches on. -/
def recognizedType (rt : Json) : Bool :=
  jsonEqStr rt "Patient" || jsonEqStr rt "Observation" ||
  jsonEqStr rt "MedicationStatement" || jsonEqStr rt "Encounter"

/-- The `resourceType` of a bundle entry's resource, as `anonymize_fhir`
reads it (`entry.get("resource", {}).get("resourceType")`). -/
def entryResourceType (entry : Json) : Json :=
  (jGet? ((jGet? entry "resource").getD (.obj [])) "resourceType").getD Json.null

/-- One-Patient bundle used against `anonymize_fhir` for the security-tag
claim. -/
def c5bundle : Json :=
  Json.obj [("resourceType", .str "Bundle"),
    ("entry", .arr [Json.obj [("resource",
      Json.obj [("resourceType", .str "Patient"), ("id", .str "p1")])]])]


/-- A one-entry bundle whose only resource is a Patient carrying just a
`birthDate` string, for exercising the birthDate parse path. -/
def c4bundle (bd : String) : Json :=
  .obj [("resourceType", .str "Bundle"),
        ("entry", .arr [.obj [("resource",
          .obj [("resourceType", .str "Patient"),
                ("birthDate", .str bd)])]])]


/-- The constructor-time configuration of an `Anonymizer`: everything except
the vault and the draw counter, which are the only fields ever reassigned. -/
def cfg (s : AnonState) : String × Bool × Bool × (Nat → Int) :=
  (s.salt, s.preserve_age, s.preserve_gender, s.rng)


/-- A bundle entry holding an Observation that references `Patient/pid`. -/
def c1refEntry (pid : String) : Json :=
  .obj [("resource", .obj [("resourceType", .str "Observation"),
        ("subject", .obj [("reference", .str ("Patient/" ++ pid))])])]

/-- A bundle entry holding a bare Patient with id `pid`. -/
def c1patEntry (pid : String) : Json :=
  .obj [("resource", .obj [("resourceType", .str "Patient"), ("id", .str pid)])]

/-- The referencing Observation placed BEFORE the Patient it references. -/
def c1bundle : Json :=
  .obj [("resourceType", .str "Bundle"),
        ("entry", .arr [c1refEntry "p1", c1patEntry "p1"])]

/-- The Patient first, then the referencing Observation. -/
def c1ordered (pid : String) : Json :=
  .obj [("resourceType", .str "Bundle"),
        ("entry", .arr [c1patEntry pid, c1refEntry pid])]

/-- Expected output for `c1ordered`: id hashed, reference rewritten. -/
def c1orderedOut (salt pid : String) : Json :=
  .obj [("resourceType", .str "Bundle"),
        ("entry", .arr [
          .obj [("resource", .obj [("resourceType", .str "Patient"),
                ("id", .str (idAnonVal salt pid))])],
          .obj [("resource", .obj [("resourceType", .str "Observation"),
                ("subject", .obj [("reference",
                   .str ("Patient/" ++ idAnonVal salt pid))])])]])]

/-- What `anonymize_fhir` produces on `c5bundle` under salt `"s"`: the id is
hashed, and no `meta` key appears anywhere. -/
def c5out : Json :=
  Json.obj [("resourceType", .str "Bundle"),
    ("entry", .arr [Json.obj [("resource",
      Json.obj [("resourceType", .str "Patient"),
                ("id", .str "ID-c57195a13a91")])]])]

/-! ## Basic lemmas about the dictionary operations -/

theorem alookup_aset_self {α : Type} (l : List (String × α)) (k : String) (v : α) :
    alookup (aset l k v) k = some v := by
  induction l with
  | nil => simp [aset, alookup]
  | cons p rest ih =>
      by_cases h : p.1 = k
      · simp [aset, h, alookup]
      · simp [aset, h, alookup, ih]

theorem alookup_aset_ne {α : Type} (l : List (String × α)) (k k' : String) (v : α)
    (h : k ≠ k') : alookup (aset l k v) k' = alookup l k' := by
  induction l with
  | nil => simp [aset, alookup, h]
  | cons p rest ih =>
      by_cases hp : p.1 = k
      · simp [aset, hp, alookup, h]
      · simp [aset, hp, alookup, ih]

/-- Re-assigning the value a key already has leaves the dictionary unchanged. -/
theorem aset_eq_of_lookup {α : Type} (l : List (String × α)) (k : String) (v : α)
    (h : alookup l k = some v) : aset l k v = l := by
  induction l with
  | nil => simp [alookup] at h
  | cons p rest ih =>
      obtain ⟨pk, pv⟩ := p
      by_cases hp : pk = k
      · simp [alookup, hp] at h
        simp [aset, hp, h]
      · simp [alookup, hp] at h
        simp [aset, hp, ih h]

/-- A string shorter than `pfx` never decomposes as `pfx ++ t`. -/
theorem ne_append_of_short (x pfx : String) (hlen : x.length < pfx.length) :
    ∀ t, x ≠ pfx ++ t := by
  intro t h
  have := congrArg String.length h
  rw [String.length_append] at this
  omega

/-! ## The hexdigest alphabet -/

theorem hexChar_hex : ∀ n, n < 16 → isHexLower (SHA256.hexChar n) = true := by decide

theorem byteHex_hex (b : Nat) (hb : b < 256) :
    ∀ c ∈ SHA256.byteHex b, isHexLower c = true := by
  intro c hc
  simp [SHA256.byteHex] at hc
  rcases hc with h | h <;> subst h
  · exact hexChar_hex _ (by omega)
  · exact hexChar_hex _ (by omega)

theorem bytesHex_hex (bs : List Nat) (hb : ∀ b ∈ bs, b < 256) :
    ∀ c ∈ SHA256.bytesHex bs, isHexLower c = true := by
  induction bs with
  | nil => simp [SHA256.bytesHex]
  | cons b rest ih =>
      intro c hc
      have hb' : ∀ x ∈ rest, x < 256 := fun x hx => hb x (List.mem_cons_of_mem _ hx)
      simp only [SHA256.bytesHex, List.foldr_cons] at hc
      rw [List.mem_append] at hc
      rcases hc with h | h
      · exact byteHex_hex b (hb b (List.mem_cons_self _ _)) c h
      · exact ih hb' c h

theorem bytesHex_cons (b : Nat) (rest : List Nat) :
    SHA256.bytesHex (b :: rest) = SHA256.byteHex b ++ SHA256.bytesHex rest := rfl

theorem bytesHex_length (bs : List Nat) :
    (SHA256.bytesHex bs).length = 2 * bs.length := by
  induction bs with
  | nil => simp [SHA256.bytesHex]
  | cons b rest ih =>
      rw [bytesHex_cons, List.length_append, ih]
      simp [SHA256.byteHex]
      omega

theorem digestBytes_lt (s : SHA256.Hash8) : ∀ b ∈ SHA256.digestBytes s, b < 256 := by
  intro b hb
  simp [SHA256.digestBytes, SHA256.wordBytes] at hb
  rcases hb with h|h|h|h|h|h|h|h|h|h|h|h|h|h|h|h|h|h|h|h|h|h|h|h|h|h|h|h|h|h|h|h <;>
    subst h <;> omega

theorem digestBytes_length (s : SHA256.Hash8) : (SHA256.digestBytes s).length = 32 := by
  simp [SHA256.digestBytes, SHA256.wordBytes]

theorem sha256hex_hex (s : String) : ∀ c ∈ (sha256hex s).data, isHexLower c = true := by
  intro c hc
  simp only [sha256hex] at hc
  exact bytesHex_hex _ (digestBytes_lt _) c hc

theorem sha256hex_length (s : String) : (sha256hex s).data.length = 64 := by
  simp [sha256hex, bytesHex_length, digestBytes_length]

/-! ## Characterization of `_anonymize_identifier` -/

theorem anonymize_identifier_hit (st : AnonState) (x kind v : String)
    (h : alookup st.pii_lookup (kind ++ ":" ++ x) = some v) :
    anonymize_identifier st x kind = (v, st) := by
  simp [anonymize_identifier, h]

theorem anonymize_identifier_stores (st : AnonState) (x kind : String) :
    alookup (anonymize_identifier st x kind).2.pii_lookup (kind ++ ":" ++ x)
      = some (anonymize_identifier st x kind).1 := by
  unfold anonymize_identifier
  cases hl : alookup st.pii_lookup (kind ++ ":" ++ x) with
  | some v => simp [hl]
  | none => simp [hl, alookup_aset_self]

theorem anonId_NAME (st : AnonState) (x : String)
    (h : alookup st.pii_lookup ("NAME:" ++ x) = none) :
    anonymize_identifier st x "NAME" =
      (nameAnonVal st.salt x,
       { st with pii_lookup := aset st.pii_lookup ("NAME:" ++ x) (nameAnonVal st.salt x) }) := by
  simp [anonymize_identifier, h, nameAnonVal]

theorem anonId_ID (st : AnonState) (x : String)
    (h : alookup st.pii_lookup ("ID:" ++ x) = none) :
    anonymize_identifier st x "ID" =
      (idAnonVal st.salt x,
       { st with pii_lookup := aset st.pii_lookup ("ID:" ++ x) (idAnonVal st.salt x) }) := by
  simp [anonymize_identifier, h, idAnonVal]

theorem anonId_ADDRESS (st : AnonState) (x : String)
    (h : alookup st.pii_lookup ("ADDRESS:" ++ x) = none) :
    anonymize_identifier st x "ADDRESS" =
      (addressAnonVal st.salt x,
       { st with pii_lookup := aset st.pii_lookup ("ADDRESS:" ++ x) (addressAnonVal st.salt x) }) := by
  simp [anonymize_identifier, h, addressAnonVal]

theorem anonId_PHONE (st : AnonState) (x : String)
    (h : alookup st.pii_lookup ("PHONE:" ++ x) = none) :
    anonymize_identifier st x "PHONE" =
      (phoneAnonVal st.salt x,
       { st with pii_lookup := aset st.pii_lookup ("PHONE:" ++ x) (phoneAnonVal st.salt x) }) := by
  simp [anonymize_identifier, h, phoneAnonVal]

theorem anonId_EMAIL (st : AnonState) (x : String)
    (h : alookup st.pii_lookup ("EMAIL:" ++ x) = none) :
    anonymize_identifier st x "EMAIL" =
      (emailAnonVal st.salt x,
       { st with pii_lookup := aset st.pii_lookup ("EMAIL:" ++ x) (emailAnonVal st.salt x) }) := by
  simp [anonymize_identifier, h, emailAnonVal]

theorem anonId_SSN (st : AnonState) (x : String)
    (h : alookup st.pii_lookup ("SSN:" ++ x) = none) :
    anonymize_identifier st x "SSN" =
      (ssnAnonVal st.salt x,
       { st with pii_lookup := aset st.pii_lookup ("SSN:" ++ x) (ssnAnonVal st.salt x) }) := by
  simp [anonymize_identifier, h, ssnAnonVal]

theorem anonId_DOB_err (st : AnonState) (x : String)
    (h : alookup st.pii_lookup ("DOB:" ++ x) = none)
    (e : PyErr) (he : strptimeYmd x = .error e) :
    anonymize_identifier st x "DOB" =
      ("Date-" ++ strTake (sha256hex (st.salt ++ ":" ++ x)) 8,
       { st with pii_lookup := aset st.pii_lookup ("DOB:" ++ x)
                   ("Date-" ++ strTake (sha256hex (st.salt ++ ":" ++ x)) 8) }) := by
  simp [anonymize_identifier, h, he]

theorem anonId_default (st : AnonState) (x kind : String)
    (h : alookup st.pii_lookup (kind ++ ":" ++ x) = none)
    (h1 : kind ≠ "NAME") (h2 : kind ≠ "ID") (h3 : kind ≠ "DOB") (h4 : kind ≠ "ADDRESS")
    (h5 : kind ≠ "PHONE") (h6 : kind ≠ "EMAIL") (h7 : kind ≠ "SSN") :
    anonymize_identifier st x kind =
      ("Anon-" ++ strTake (sha256hex (st.salt ++ ":" ++ x)) 8,
       { st with pii_lookup := aset st.pii_lookup (kind ++ ":" ++ x)
                   ("Anon-" ++ strTake (sha256hex (st.salt ++ ":" ++ x)) 8) }) := by
  simp [anonymize_identifier, h, h1, h2, h3, h4, h5, h6, h7]

/-! ## Claim C2 -/

/-- Claim C2 counterexample: the DOB field anonymizer is *not* deterministic
across two separately constructed `Anonymizer` instances with the same salt —
the random day offset differs, so the same parseable birth date maps to two
different strings. -/
theorem C2_counterexample :
    (anonymize_identifier (mkAnonymizer "s" true true (fun _ => 30)) "1990-06-15" "DOB").1 ≠
    (anonymize_identifier (mkAnonymizer "s" true true (fun _ => 31)) "1990-06-15" "DOB").1 := by
  decide

/-- Claim C2 (amended): for fixed salt and any PII kind, two calls on the same
instance yield identical outputs (the vault replays the stored value); and two
calls on two separately constructed instances with the same salt yield
identical outputs for every kind except DOB applied to a parseable date (whose
substitution draws a random day offset). -/
theorem C2_amended :
    (∀ (st : AnonState) (x kind : String),
      (anonymize_identifier (anonymize_identifier st x kind).2 x kind).1
        = (anonymize_identifier st x kind).1) ∧
    (∀ (salt : String) (pa pg pa' pg' : Bool) (rng rng' : Nat → Int) (x kind : String),
      (kind ≠ "DOB" ∨ ∃ e, strptimeYmd x = Except.error e) →
      (anonymize_identifier (mkAnonymizer salt pa pg rng) x kind).1
        = (anonymize_identifier (mkAnonymizer salt pa' pg' rng') x kind).1) := by
  constructor
  · intro st x kind
    have hs := anonymize_identifier_stores st x kind
    rw [anonymize_identifier_hit ((anonymize_identifier st x kind).2) x kind _ hs]
  · intro salt pa pg pa' pg' rng rng' x kind hk
    by_cases h1 : kind = "NAME"
    · subst h1
      rw [anonId_NAME (mkAnonymizer salt pa pg rng) x rfl,
          anonId_NAME (mkAnonymizer salt pa' pg' rng') x rfl]
      rfl
    · by_cases h2 : kind = "ID"
      · subst h2
        rw [anonId_ID (mkAnonymizer salt pa pg rng) x rfl,
            anonId_ID (mkAnonymizer salt pa' pg' rng') x rfl]
        rfl
      · by_cases h3 : kind = "DOB"
        · subst h3
          rcases hk with hk | ⟨e, he⟩
          · exact absurd rfl hk
          · rw [anonId_DOB_err (mkAnonymizer salt pa pg rng) x rfl e he,
                anonId_DOB_err (mkAnonymizer salt pa' pg' rng') x rfl e he]
            rfl
        · by_cases h4 : kind = "ADDRESS"
          · subst h4
            rw [anonId_ADDRESS (mkAnonymizer salt pa pg rng) x rfl,
                anonId_ADDRESS (mkAnonymizer salt pa' pg' rng') x rfl]
            rfl
          · by_cases h5 : kind = "PHONE"
            · subst h5
              rw [anonId_PHONE (mkAnonymizer salt pa pg rng) x rfl,
                  anonId_PHONE (mkAnonymizer salt pa' pg' rng') x rfl]
              rfl
            · by_cases h6 : kind = "EMAIL"
              · subst h6
                rw [anonId_EMAIL (mkAnonymizer salt pa pg rng) x rfl,
                    anonId_EMAIL (mkAnonymizer salt pa' pg' rng') x rfl]
                rfl
              · by_cases h7 : kind = "SSN"
                · subst h7
                  rw [anonId_SSN (mkAnonymizer salt pa pg rng) x rfl,
                      anonId_SSN (mkAnonymizer salt pa' pg' rng') x rfl]
                  rfl
                · rw [anonId_default (mkAnonymizer salt pa pg rng) x kind rfl
                        h1 h2 h3 h4 h5 h6 h7,
                      anonId_default (mkAnonymizer salt pa' pg' rng') x kind rfl
                        h1 h2 h3 h4 h5 h6 h7]
                  rfl

/-- Claim C2 witness: the amended determinism at concrete inputs — a repeated
NAME call on one instance, and a DOB call on an unparseable date across two
instances with different oracles. -/
theorem C2_amended_witness :
    (anonymize_identifier
        (anonymize_identifier (mkAnonymizer "s" true true (fun _ => 0)) "Jane" "NAME").2
        "Jane" "NAME").1
      = (anonymize_identifier (mkAnonymizer "s" true true (fun _ => 0)) "Jane" "NAME").1 ∧
    (anonymize_identifier (mkAnonymizer "s" true true (fun _ => 0)) "notadate" "DOB").1
      = (anonymize_identifier (mkAnonymizer "s" false false (fun _ => 7)) "notadate" "DOB").1 :=
  ⟨C2_amended.1 (mkAnonymizer "s" true true (fun _ => 0)) "Jane" "NAME",
   C2_amended.2 "s" true true false false (fun _ => 0) (fun _ => 7) "notadate" "DOB"
     (Or.inr ⟨PyErr.valueError, rfl⟩)⟩

/-! ## Claim C9 -/

/-- Claim C9 counterexample: the PHONE output is built from hexadecimal digest
characters, so it does not always match an all-decimal-digit `555-XXX-XXXX`
pattern: under salt `"s"`, `"555-123-4567"` maps to `"555-5fa-5d6b"`. -/
theorem C9_counterexample :
    phoneAllDigits ((anonymize_identifier (mkAnonymizer "s" true true (fun _ => 0))
        "555-123-4567" "PHONE").1) = false := by
  decide

/-- Claim C9 (amended): on first sight of a value, the PHONE output is
`"555-" ++ a ++ "-" ++ b` with `a` three and `b` four lowercase hexadecimal
characters (not necessarily decimal digits), the EMAIL output ends in
`"@example.com"`, and the ID output starts with `"ID-"`. -/
theorem C9_amended (st : AnonState) (x : String) :
    (alookup st.pii_lookup ("PHONE:" ++ x) = none →
      ∃ a b : String, (anonymize_identifier st x "PHONE").1 = "555-" ++ a ++ "-" ++ b ∧
        a.data.length = 3 ∧ b.data.length = 4 ∧
        (∀ c ∈ a.data, isHexLower c = true) ∧ (∀ c ∈ b.data, isHexLower c = true)) ∧
    (alookup st.pii_lookup ("EMAIL:" ++ x) = none →
      ∃ t : String, (anonymize_identifier st x "EMAIL").1 = t ++ "@example.com") ∧
    (alookup st.pii_lookup ("ID:" ++ x) = none →
      ∃ t : String, (anonymize_identifier st x "ID").1 = "ID-" ++ t) := by
  refine ⟨fun h => ?_, fun h => ?_, fun h => ?_⟩
  · rw [anonId_PHONE st x h]
    refine ⟨strTake (sha256hex (st.salt ++ ":" ++ x)) 3,
            strTake (strDrop (sha256hex (st.salt ++ ":" ++ x)) 3) 4,
            rfl, ?_, ?_, ?_, ?_⟩
    · show ((sha256hex (st.salt ++ ":" ++ x)).data.take 3).length = 3
      rw [List.length_take, sha256hex_length]
      decide
    · show (((sha256hex (st.salt ++ ":" ++ x)).data.drop 3).take 4).length = 4
      rw [List.length_take, List.length_drop, sha256hex_length]
      decide
    · intro c hc
      exact sha256hex_hex _ c (List.take_subset _ _ hc)
    · intro c hc
      exact sha256hex_hex _ c (List.drop_subset _ _ (List.take_subset _ _ hc))
  · rw [anonId_EMAIL st x h]
    exact ⟨"person." ++ strTake (sha256hex (st.salt ++ ":" ++ x)) 8, rfl⟩
  · rw [anonId_ID st x h]
    exact ⟨strTake (sha256hex (st.salt ++ ":" ++ x)) 12, rfl⟩

/-- Claim C9 witness: the amended shapes at concrete inputs under salt `"s"`. -/
theorem C9_amended_witness :
    (∃ a b : String,
      (anonymize_identifier (mkAnonymizer "s" true true (fun _ => 0))
          "555-123-4567" "PHONE").1 = "555-" ++ a ++ "-" ++ b ∧
        a.data.length = 3 ∧ b.data.length = 4 ∧
        (∀ c ∈ a.data, isHexLower c = true) ∧ (∀ c ∈ b.data, isHexLower c = true)) ∧
    (∃ t : String,
      (anonymize_identifier (mkAnonymizer "s" true true (fun _ => 0))
          "jane.smith@example.com" "EMAIL").1 = t ++ "@example.com") ∧
    (∃ t : String,
      (anonymize_identifier (mkAnonymizer "s" true true (fun _ => 0))
          "patient123" "ID").1 = "ID-" ++ t) :=
  ⟨(C9_amended (mkAnonymizer "s" true true (fun _ => 0)) "555-123-4567").1 rfl,
   (C9_amended (mkAnonymizer "s" true true (fun _ => 0)) "jane.smith@example.com").2.1 rfl,
   (C9_amended (mkAnonymizer "s" true true (fun _ => 0)) "patient123").2.2 rfl⟩

/-! ## Claim C10 -/

/-- Claim C10 counterexample: the SSN substitution has a fixed point — under
salt `"s"` the non-empty value `"XXX-XX-6e79"` is anonymized to itself,
because the first four hex digits of its salted digest are `6e79`. -/
theorem C10_counterexample :
    "XXX-XX-6e79" ≠ "" ∧
    (anonymize_identifier (mkAnonymizer "s" true true (fun _ => 0))
        "XXX-XX-6e79" "SSN").1 = "XXX-XX-6e79" := by
  exact ⟨by decide, by decide⟩

/-- Claim C10 (amended): on first sight of a value, the NAME, ID, ADDRESS,
PHONE, EMAIL and SSN substitutions always change the string, provided the
original does not itself carry the kind's synthetic shape (prefix `Person-`,
`ID-`, `Address-`, `555-…-…`, `person.…@example.com`, `XXX-XX-`). -/
theorem C10_amended (st : AnonState) (x : String) :
    (alookup st.pii_lookup ("NAME:" ++ x) = none → (∀ t, x ≠ "Person-" ++ t) →
      (anonymize_identifier st x "NAME").1 ≠ x) ∧
    (alookup st.pii_lookup ("ID:" ++ x) = none → (∀ t, x ≠ "ID-" ++ t) →
      (anonymize_identifier st x "ID").1 ≠ x) ∧
    (alookup st.pii_lookup ("ADDRESS:" ++ x) = none → (∀ t, x ≠ "Address-" ++ t) →
      (anonymize_identifier st x "ADDRESS").1 ≠ x) ∧
    (alookup st.pii_lookup ("PHONE:" ++ x) = none →
      (∀ t u, x ≠ "555-" ++ t ++ "-" ++ u) →
      (anonymize_identifier st x "PHONE").1 ≠ x) ∧
    (alookup st.pii_lookup ("EMAIL:" ++ x) = none →
      (∀ t, x ≠ "person." ++ t ++ "@example.com") →
      (anonymize_identifier st x "EMAIL").1 ≠ x) ∧
    (alookup st.pii_lookup ("SSN:" ++ x) = none → (∀ t, x ≠ "XXX-XX-" ++ t) →
      (anonymize_identifier st x "SSN").1 ≠ x) := by
  refine ⟨fun h hx => ?_, fun h hx => ?_, fun h hx => ?_,
          fun h hx => ?_, fun h hx => ?_, fun h hx => ?_⟩
  · simp only [anonId_NAME st x h, nameAnonVal]
    exact fun e => hx _ e.symm
  · simp only [anonId_ID st x h, idAnonVal]
    exact fun e => hx _ e.symm
  · simp only [anonId_ADDRESS st x h, addressAnonVal]
    exact fun e => hx _ e.symm
  · simp only [anonId_PHONE st x h, phoneAnonVal]
    exact fun e => hx _ _ e.symm
  · simp only [anonId_EMAIL st x h, emailAnonVal]
    exact fun e => hx _ e.symm
  · simp only [anonId_SSN st x h, ssnAnonVal]
    exact fun e => hx _ e.symm

/-- Claim C10 witness: all six substitutions change the short, shape-free
value `"J"` under salt `"s"`. -/
theorem C10_amended_witness :
    (anonymize_identifier (mkAnonymizer "s" true true (fun _ => 0)) "J" "NAME").1 ≠ "J" ∧
    (anonymize_identifier (mkAnonymizer "s" true true (fun _ => 0)) "J" "ID").1 ≠ "J" ∧
    (anonymize_identifier (mkAnonymizer "s" true true (fun _ => 0)) "J" "ADDRESS").1 ≠ "J" ∧
    (anonymize_identifier (mkAnonymizer "s" true true (fun _ => 0)) "J" "PHONE").1 ≠ "J" ∧
    (anonymize_identifier (mkAnonymizer "s" true true (fun _ => 0)) "J" "EMAIL").1 ≠ "J" ∧
    (anonymize_identifier (mkAnonymizer "s" true true (fun _ => 0)) "J" "SSN").1 ≠ "J" := by
  have H := C10_amended (mkAnonymizer "s" true true (fun _ => 0)) "J"
  refine ⟨H.1 rfl (ne_append_of_short _ _ (by decide)),
          H.2.1 rfl (ne_append_of_short _ _ (by decide)),
          H.2.2.1 rfl (ne_append_of_short _ _ (by decide)),
          H.2.2.2.1 rfl ?_,
          H.2.2.2.2.1 rfl ?_,
          H.2.2.2.2.2 rfl (ne_append_of_short _ _ (by decide))⟩
  · intro t u e
    have := congrArg String.length e
    rw [String.length_append, String.length_append, String.length_append] at this
    have h4 : ("555-" : String).length = 4 := by decide
    have h1 : ("J" : String).length = 1 := by decide
    have hd : ("-" : String).length = 1 := by decide
    omega
  · intro t e
    have := congrArg String.length e
    rw [String.length_append, String.length_append] at this
    have h7 : ("person." : String).length = 7 := by decide
    have h1 : ("J" : String).length = 1 := by decide
    have hd : ("@example.com" : String).length = 12 := by decide
    omega

/-! ## Machinery for the `anonymize` path -/

theorem except_bind_ok_inv {α β : Type} {m : Except PyErr α} {f : α → Except PyErr β} {v : β}
    (h : (m >>= f) = .ok v) : ∃ x, m = .ok x ∧ f x = .ok v := by
  cases m with
  | ok x => exact ⟨x, rfl, h⟩
  | error e => simp [Bind.bind, Except.bind] at h

theorem alookup_adel_ne {α : Type} (l : List (String × α)) (k k' : String) (h : k ≠ k') :
    alookup (adel l k) k' = alookup l k' := by
  induction l with
  | nil => simp [adel]
  | cons p rest ih =>
      obtain ⟨pk, pv⟩ := p
      by_cases hp : pk = k
      · subst hp
        simp [adel, alookup, h]
      · by_cases hp' : pk = k'
        · subst hp'
          simp [adel, alookup, hp]
        · simp [adel, alookup, hp, hp', ih]

theorem piiField_obj (pii_type key : String) (st : AnonState) (kvs : List (String × Json)) :
    piiField pii_type key st (.obj kvs) =
      match alookup kvs key with
      | some _ => .ok (.obj (aset kvs key Json.null), { st with pii_lookup := [] })
      | none => .ok (.obj kvs, st) := by
  cases h : alookup kvs key <;>
    simp [piiField, pyContains, pyGetItem, pySetItem, anonymize_pii, h,
      Bind.bind, Except.bind, Pure.pure, Except.pure]

theorem piiList_fst (pii_type : String) (st : AnonState) (xs : List Json) :
    (piiList pii_type st xs).1 = xs.map (fun _ => Json.null) := by
  induction xs generalizing st with
  | nil => simp [piiList]
  | cons x rest ih => simp [piiList, anonymize_pii, ih]

theorem piiList_snd_reset (pii_type : String) (s : AnonState) (xs : List Json)
    (h : s.pii_lookup = []) : (piiList pii_type s xs).2 = s := by
  induction xs generalizing s with
  | nil => rfl
  | cons x rest ih =>
      have hs : { s with pii_lookup := ([] : List (String × String)) } = s := by
        cases s
        simp_all
      simp [piiList, anonymize_pii, hs, ih s h]

theorem piiList_snd (pii_type : String) (st : AnonState) (x : Json) (xs : List Json) :
    (piiList pii_type st (x :: xs)).2 = { st with pii_lookup := [] } := by
  simp [piiList, anonymize_pii,
    piiList_snd_reset pii_type { st with pii_lookup := [] } xs rfl]

theorem piiListField_obj (pii_type key : String) (st : AnonState)
    (kvs : List (String × Json)) (xs : List Json)
    (h : alookup kvs key = some (.arr xs)) :
    piiListField pii_type key st (.obj kvs) =
      .ok (.obj (aset kvs key (.arr (xs.map (fun _ => Json.null)))),
           (piiList pii_type st xs).2) := by
  simp [piiListField, pyContains, pyGetItem, pySetItem, h, piiList_fst,
    Bind.bind, Except.bind, Pure.pure, Except.pure]

theorem mapItems_rel {R : Json → Json → Prop}
    (f : AnonState → Json → Except PyErr (Json × AnonState))
    (hf : ∀ s s' x y, f s x = .ok (y, s') → R x y) :
    ∀ (st st' : AnonState) (xs ys : List Json),
      mapItems f st xs = .ok (ys, st') →
      ys.length = xs.length ∧
      ∀ i x, xs.get? i = some x → ∃ y, ys.get? i = some y ∧ R x y := by
  intro st st' xs
  induction xs generalizing st with
  | nil =>
      intro ys h
      simp only [mapItems] at h
      cases h
      exact ⟨rfl, by intro i x hx; simp at hx⟩
  | cons x rest ih =>
      intro ys h
      simp only [mapItems] at h
      obtain ⟨⟨y, s1⟩, hy, h2⟩ := except_bind_ok_inv h
      obtain ⟨⟨ys1, s2⟩, hys, h3⟩ := except_bind_ok_inv h2
      have h4 := h3
      simp only [Pure.pure, Except.pure, Except.ok.injEq, Prod.mk.injEq] at h4
      obtain ⟨rfl, rfl⟩ := h4
      obtain ⟨hlen, hitems⟩ := ih s1 ys1 hys
      refine ⟨by simp [hlen], ?_⟩
      intro i z hz
      cases i with
      | zero =>
          rw [List.get?_cons_zero] at hz
          cases hz
          exact ⟨y, rfl, hf _ _ _ _ hy⟩
      | succ n =>
          rw [List.get?_cons_succ] at hz
          obtain ⟨w, hw, hR⟩ := hitems n z hz
          exact ⟨w, by rw [List.get?_cons_succ]; exact hw, hR⟩

theorem forEachItem_spec {R : Json → Json → Prop}
    (f : AnonState → Json → Except PyErr (Json × AnonState)) (key : String)
    (hf : ∀ s s' x y, f s x = .ok (y, s') → R x y)
    (st st' : AnonState) (kvs : List (String × Json)) (d' : Json)
    (h : forEachItem f st (.obj kvs) key = .ok (d', st')) :
    ∃ kvs', d' = .obj kvs' ∧ (∀ k, k ≠ key → alookup kvs' k = alookup kvs k) ∧
      (∀ xs, alookup kvs key = some (.arr xs) →
        ∃ ys, alookup kvs' key = some (.arr ys) ∧ ys.length = xs.length ∧
          (∀ i x, xs.get? i = some x → ∃ y, ys.get? i = some y ∧ R x y)) := by
  cases hk : alookup kvs key with
  | none =>
      have h' : Json.obj kvs = d' ∧ st = st' := by
        simpa [forEachItem, pyContains, hk, Pure.pure, Except.pure,
          Bind.bind, Except.bind] using h
      obtain ⟨rfl, rfl⟩ := h'
      exact ⟨kvs, rfl, fun k _ => rfl, fun xs hxs => Option.noConfusion hxs⟩
  | some container =>
      cases container with
      | arr xs =>
          simp only [forEachItem, pyContains, pyGetItem, pyIter, hk, Option.isSome_some,
            if_true, Bind.bind, Except.bind, Pure.pure, Except.pure] at h
          cases hm : mapItems f st xs with
          | error e => rw [hm] at h; cases h
          | ok p =>
              obtain ⟨ys, s1⟩ := p
              rw [hm] at h
              simp only [pySetItem] at h
              cases h
              obtain ⟨hlen, hitems⟩ := mapItems_rel f hf st _ xs ys hm
              refine ⟨aset kvs key (.arr ys), rfl,
                fun k hkne => alookup_aset_ne _ _ _ _ (fun e => hkne e.symm),
                fun xs0 hxs0 => ?_⟩
              injection hxs0 with h1
              injection h1 with h2
              subst h2
              exact ⟨ys, alookup_aset_self _ _ _, hlen, hitems⟩
      | str s =>
          simp only [forEachItem, pyContains, pyGetItem, pyIter, hk, Option.isSome_some,
            if_true, Bind.bind, Except.bind, Pure.pure, Except.pure] at h
          cases hm : mapItems f st (s.data.map (fun c => Json.str (String.mk [c]))) with
          | error e => rw [hm] at h; cases h
          | ok p =>
              rw [hm] at h
              cases h
              refine ⟨kvs, rfl, fun k _ => rfl, fun xs hxs => ?_⟩
              injection hxs with h1
              cases h1
      | obj mkvs =>
          simp only [forEachItem, pyContains, pyGetItem, pyIter, hk, Option.isSome_some,
            if_true, Bind.bind, Except.bind, Pure.pure, Except.pure] at h
          cases hm : mapItems f st (mkvs.map (fun kv => Json.str kv.1)) with
          | error e => rw [hm] at h; cases h
          | ok p =>
              rw [hm] at h
              cases h
              refine ⟨kvs, rfl, fun k _ => rfl, fun xs hxs => ?_⟩
              injection hxs with h1
              cases h1
      | null =>
          simp [forEachItem, pyContains, pyGetItem, pyIter, hk,
            Bind.bind, Except.bind, Pure.pure, Except.pure] at h
      | int n =>
          simp [forEachItem, pyContains, pyGetItem, pyIter, hk,
            Bind.bind, Except.bind, Pure.pure, Except.pure] at h
      | bool b =>
          simp [forEachItem, pyContains, pyGetItem, pyIter, hk,
            Bind.bind, Except.bind, Pure.pure, Except.pure] at h

theorem piiField_rel (pt key : String) (s s' : AnonState) (x y : Json)
    (h : piiField pt key s x = .ok (y, s')) (kvsI : List (String × Json))
    (hx : x = .obj kvsI) :
    ∃ kvsO, y = .obj kvsO ∧
      ((alookup kvsI key).isSome → alookup kvsO key = some Json.null) ∧
      (∀ k, k ≠ key → alookup kvsO k = alookup kvsI k) := by
  subst hx
  rw [piiField_obj] at h
  cases hl : alookup kvsI key with
  | some v =>
      rw [hl] at h
      cases h
      exact ⟨aset kvsI key Json.null, rfl, fun _ => alookup_aset_self _ _ _,
        fun k hk => alookup_aset_ne _ _ _ _ (fun e => hk e.symm)⟩
  | none =>
      rw [hl] at h
      cases h
      exact ⟨kvsI, rfl, by simp [hl], fun _ _ => rfl⟩

theorem piiListField_none (pt key : String) (st : AnonState) (kvs : List (String × Json))
    (h : alookup kvs key = none) :
    piiListField pt key st (.obj kvs) = .ok (.obj kvs, st) := by
  simp [piiListField, pyContains, h, Bind.bind, Except.bind, Pure.pure, Except.pure]

theorem piiListField_skip (pt key : String) (st : AnonState) (kvs : List (String × Json))
    (g : Json) (h : alookup kvs key = some g) (hg : ∀ ls, g ≠ .arr ls) :
    piiListField pt key st (.obj kvs) = .ok (.obj kvs, st) := by
  cases g with
  | arr ls => exact absurd rfl (hg ls)
  | null => simp [piiListField, pyContains, pyGetItem, h,
      Bind.bind, Except.bind, Pure.pure, Except.pure]
  | str s0 => simp [piiListField, pyContains, pyGetItem, h,
      Bind.bind, Except.bind, Pure.pure, Except.pure]
  | int n => simp [piiListField, pyContains, pyGetItem, h,
      Bind.bind, Except.bind, Pure.pure, Except.pure]
  | bool b => simp [piiListField, pyContains, pyGetItem, h,
      Bind.bind, Except.bind, Pure.pure, Except.pure]
  | obj o => simp [piiListField, pyContains, pyGetItem, h,
      Bind.bind, Except.bind, Pure.pure, Except.pure]

theorem piiListField_rel (pt key : String) (s s' : AnonState) (x y : Json)
    (h : piiListField pt key s x = .ok (y, s')) (kvsI : List (String × Json))
    (hx : x = .obj kvsI) :
    ∃ kvsO, y = .obj kvsO ∧
      (∀ ls, alookup kvsI key = some (.arr ls) →
        alookup kvsO key = some (.arr (ls.map fun _ => Json.null))) ∧
      (∀ k, k ≠ key → alookup kvsO k = alookup kvsI k) := by
  subst hx
  cases hl : alookup kvsI key with
  | none =>
      rw [piiListField_none pt key s kvsI hl] at h
      cases h
      exact ⟨kvsI, rfl, fun ls hls => Option.noConfusion hls, fun _ _ => rfl⟩
  | some g =>
      cases g with
      | arr ls =>
          rw [piiListField_obj pt key s kvsI ls hl] at h
          cases h
          refine ⟨aset kvsI key (.arr (ls.map fun _ => Json.null)), rfl,
            fun ls0 hls0 => ?_, fun k hk => alookup_aset_ne _ _ _ _ (fun e => hk e.symm)⟩
          injection hls0 with h1
          injection h1 with h2
          subst h2
          exact alookup_aset_self _ _ _
      | null =>
          rw [piiListField_skip pt key s kvsI _ hl (fun ls e => Json.noConfusion e)] at h
          cases h
          refine ⟨kvsI, rfl, fun ls hls => ?_, fun _ _ => rfl⟩
          injection hls with h1
          cases h1
      | str s0 =>
          rw [piiListField_skip pt key s kvsI _ hl (fun ls e => Json.noConfusion e)] at h
          cases h
          refine ⟨kvsI, rfl, fun ls hls => ?_, fun _ _ => rfl⟩
          injection hls with h1
          cases h1
      | int n =>
          rw [piiListField_skip pt key s kvsI _ hl (fun ls e => Json.noConfusion e)] at h
          cases h
          refine ⟨kvsI, rfl, fun ls hls => ?_, fun _ _ => rfl⟩
          injection hls with h1
          cases h1
      | bool b =>
          rw [piiListField_skip pt key s kvsI _ hl (fun ls e => Json.noConfusion e)] at h
          cases h
          refine ⟨kvsI, rfl, fun ls hls => ?_, fun _ _ => rfl⟩
          injection hls with h1
          cases h1
      | obj o =>
          rw [piiListField_skip pt key s kvsI _ hl (fun ls e => Json.noConfusion e)] at h
          cases h
          refine ⟨kvsI, rfl, fun ls hls => ?_, fun _ _ => rfl⟩
          injection hls with h1
          cases h1

theorem resNameItem_rel (s s' : AnonState) (x y : Json)
    (h : resNameItem s x = .ok (y, s')) (kvsN : List (String × Json))
    (hx : x = .obj kvsN) :
    ∃ kvsO, y = .obj kvsO ∧
      ((alookup kvsN "text").isSome → alookup kvsO "text" = some Json.null) ∧
      ((alookup kvsN "family").isSome → alookup kvsO "family" = some Json.null) ∧
      (∀ gs, alookup kvsN "given" = some (.arr gs) →
        alookup kvsO "given" = some (.arr (gs.map fun _ => Json.null))) := by
  subst hx
  simp only [resNameItem] at h
  obtain ⟨⟨d1, s1⟩, h1, h⟩ := except_bind_ok_inv h
  obtain ⟨⟨d2, s2⟩, h2, h⟩ := except_bind_ok_inv h
  obtain ⟨kvs1, rfl, ht1, hf1⟩ := piiField_rel "NAME" "text" s s1 _ d1 h1 kvsN rfl
  obtain ⟨kvs2, rfl, ht2, hf2⟩ := piiField_rel "NAME" "family" s1 s2 _ d2 h2 kvs1 rfl
  obtain ⟨kvs3, rfl, hg3, hf3⟩ := piiListField_rel "NAME" "given" s2 s' _ y h kvs2 rfl
  refine ⟨kvs3, rfl, ?_, ?_, ?_⟩
  · intro hsome
    rw [hf3 "text" (by decide), hf2 "text" (by decide)]
    exact ht1 hsome
  · intro hsome
    rw [hf3 "family" (by decide)]
    refine ht2 ?_
    rw [hf1 "family" (by decide)]
    exact hsome
  · intro gs hgs
    refine hg3 gs ?_
    rw [hf2 "given" (by decide), hf1 "given" (by decide)]
    exact hgs

theorem resTelecomItem_obj_some (s : AnonState) (kvsT : List (String × Json)) (v : Json)
    (h : alookup kvsT "value" = some v) :
    resTelecomItem s (.obj kvsT) =
      .ok (.obj (aset kvsT "value" Json.null), { s with pii_lookup := [] }) := by
  simp only [resTelecomItem, pyContains, pyDictGet, pyGetItem, pySetItem, anonymize_pii, h,
    Bind.bind, Except.bind, Pure.pure, Except.pure, Option.isSome_some, if_true]
  split_ifs <;> rfl

theorem resTelecomItem_obj_none (s : AnonState) (kvsT : List (String × Json))
    (h : alookup kvsT "value" = none) :
    resTelecomItem s (.obj kvsT) = .ok (.obj kvsT, s) := by
  simp [resTelecomItem, pyContains, h, Bind.bind, Except.bind, Pure.pure, Except.pure]

theorem resTelecomItem_rel (s s' : AnonState) (x y : Json)
    (h : resTelecomItem s x = .ok (y, s')) (kvsT : List (String × Json))
    (hx : x = .obj kvsT) :
    ∃ kvsO, y = .obj kvsO ∧
      ((alookup kvsT "value").isSome → alookup kvsO "value" = some Json.null) := by
  subst hx
  cases hv : alookup kvsT "value" with
  | none =>
      rw [resTelecomItem_obj_none s kvsT hv] at h
      cases h
      exact ⟨kvsT, rfl, by simp [hv]⟩
  | some v =>
      rw [resTelecomItem_obj_some s kvsT v hv] at h
      cases h
      exact ⟨aset kvsT "value" Json.null, rfl, fun _ => alookup_aset_self _ _ _⟩

theorem resetLike_trans {s s' s'' : AnonState}
    (h1 : s' = s ∨ s' = { s with pii_lookup := [] })
    (h2 : s'' = s' ∨ s'' = { s' with pii_lookup := [] }) :
    s'' = s ∨ s'' = { s with pii_lookup := [] } := by
  rcases h1 with rfl | rfl
  · exact h2
  · rcases h2 with rfl | rfl
    · exact Or.inr rfl
    · exact Or.inr rfl

theorem piiField_state (pt key : String) (s s' : AnonState) (x y : Json)
    (h : piiField pt key s x = .ok (y, s')) :
    s' = s ∨ s' = { s with pii_lookup := [] } := by
  cases x with
  | obj kvs =>
      rw [piiField_obj] at h
      cases hl : alookup kvs key <;> rw [hl] at h <;> cases h
      · exact Or.inl rfl
      · exact Or.inr rfl
  | str s0 =>
      by_cases hc : pySubstr key s0
      · simp [piiField, pyContains, pyGetItem, hc,
          Bind.bind, Except.bind, Pure.pure, Except.pure] at h
      · simp [piiField, pyContains, pyGetItem, hc,
          Bind.bind, Except.bind, Pure.pure, Except.pure] at h
        exact Or.inl h.2.symm
  | arr xs =>
      by_cases hc : xs.any (fun z => jsonEqStr z key) = true
      · simp [piiField, pyContains, pyGetItem, hc,
          Bind.bind, Except.bind, Pure.pure, Except.pure] at h
      · simp [piiField, pyContains, pyGetItem, hc,
          Bind.bind, Except.bind, Pure.pure, Except.pure] at h
        exact Or.inl h.2.symm
  | null => simp [piiField, pyContains, Bind.bind, Except.bind] at h
  | int n => simp [piiField, pyContains, Bind.bind, Except.bind] at h
  | bool b => simp [piiField, pyContains, Bind.bind, Except.bind] at h

theorem piiListField_state (pt key : String) (s s' : AnonState) (x y : Json)
    (h : piiListField pt key s x = .ok (y, s')) :
    s' = s ∨ s' = { s with pii_lookup := [] } := by
  cases x with
  | obj kvs =>
      cases hl : alookup kvs key with
      | none =>
          rw [piiListField_none pt key s kvs hl] at h
          cases h
          exact Or.inl rfl
      | some g =>
          cases g with
          | arr ls =>
              rw [piiListField_obj pt key s kvs ls hl] at h
              cases h
              cases ls with
              | nil => exact Or.inl rfl
              | cons a t => exact Or.inr (piiList_snd pt s a t)
          | null => rw [piiListField_skip pt key s kvs _ hl (fun _ e => Json.noConfusion e)] at h
                    cases h; exact Or.inl rfl
          | str s0 => rw [piiListField_skip pt key s kvs _ hl (fun _ e => Json.noConfusion e)] at h
                      cases h; exact Or.inl rfl
          | int n => rw [piiListField_skip pt key s kvs _ hl (fun _ e => Json.noConfusion e)] at h
                     cases h; exact Or.inl rfl
          | bool b => rw [piiListField_skip pt key s kvs _ hl (fun _ e => Json.noConfusion e)] at h
                      cases h; exact Or.inl rfl
          | obj o => rw [piiListField_skip pt key s kvs _ hl (fun _ e => Json.noConfusion e)] at h
                     cases h; exact Or.inl rfl
  | str s0 =>
      by_cases hc : pySubstr key s0
      · simp [piiListField, pyContains, pyGetItem, hc,
          Bind.bind, Except.bind, Pure.pure, Except.pure] at h
      · simp [piiListField, pyContains, pyGetItem, hc,
          Bind.bind, Except.bind, Pure.pure, Except.pure] at h
        exact Or.inl h.2.symm
  | arr xs =>
      by_cases hc : xs.any (fun z => jsonEqStr z key) = true
      · simp [piiListField, pyContains, pyGetItem, hc,
          Bind.bind, Except.bind, Pure.pure, Except.pure] at h
      · simp [piiListField, pyContains, pyGetItem, hc,
          Bind.bind, Except.bind, Pure.pure, Except.pure] at h
        exact Or.inl h.2.symm
  | null => simp [piiListField, pyContains, Bind.bind, Except.bind] at h
  | int n => simp [piiListField, pyContains, Bind.bind, Except.bind] at h
  | bool b => simp [piiListField, pyContains, Bind.bind, Except.bind] at h

theorem resNameItem_state (s s' : AnonState) (x y : Json)
    (h : resNameItem s x = .ok (y, s')) :
    s' = s ∨ s' = { s with pii_lookup := [] } := by
  simp only [resNameItem] at h
  obtain ⟨⟨d1, s1⟩, h1, h⟩ := except_bind_ok_inv h
  obtain ⟨⟨d2, s2⟩, h2, h⟩ := except_bind_ok_inv h
  exact resetLike_trans (resetLike_trans (piiField_state _ _ _ _ _ _ h1)
    (piiField_state _ _ _ _ _ _ h2)) (piiListField_state _ _ _ _ _ _ h)

theorem resAddressItem_state (s s' : AnonState) (x y : Json)
    (h : resAddressItem s x = .ok (y, s')) :
    s' = s ∨ s' = { s with pii_lookup := [] } := by
  simp only [resAddressItem] at h
  obtain ⟨⟨d1, s1⟩, h1, h⟩ := except_bind_ok_inv h
  exact resetLike_trans (piiField_state _ _ _ _ _ _ h1) (piiListField_state _ _ _ _ _ _ h)

theorem resTelecomItem_state (s s' : AnonState) (x y : Json)
    (h : resTelecomItem s x = .ok (y, s')) :
    s' = s ∨ s' = { s with pii_lookup := [] } := by
  cases x with
  | obj kvs =>
      cases hv : alookup kvs "value" with
      | none =>
          rw [resTelecomItem_obj_none s kvs hv] at h
          cases h
          exact Or.inl rfl
      | some v =>
          rw [resTelecomItem_obj_some s kvs v hv] at h
          cases h
          exact Or.inr rfl
  | str s0 =>
      by_cases hc : pySubstr "value" s0
      · simp [resTelecomItem, pyContains, pyDictGet, pyGetItem, hc,
          Bind.bind, Except.bind, Pure.pure, Except.pure] at h
      · simp [resTelecomItem, pyContains, pyDictGet, pyGetItem, hc,
          Bind.bind, Except.bind, Pure.pure, Except.pure] at h
        exact Or.inl h.2.symm
  | arr xs =>
      by_cases hc : xs.any (fun z => jsonEqStr z "value") = true
      · simp [resTelecomItem, pyContains, pyDictGet, pyGetItem, hc,
          Bind.bind, Except.bind, Pure.pure, Except.pure] at h
      · simp [resTelecomItem, pyContains, pyDictGet, pyGetItem, hc,
          Bind.bind, Except.bind, Pure.pure, Except.pure] at h
        exact Or.inl h.2.symm
  | null => simp [resTelecomItem, pyContains, Bind.bind, Except.bind] at h
  | int n => simp [resTelecomItem, pyContains, Bind.bind, Except.bind] at h
  | bool b => simp [resTelecomItem, pyContains, Bind.bind, Except.bind] at h

theorem mapItems_state (f : AnonState → Json → Except PyErr (Json × AnonState))
    (hf : ∀ s s' x y, f s x = .ok (y, s') → s' = s ∨ s' = { s with pii_lookup := [] }) :
    ∀ (st st' : AnonState) (xs ys : List Json),
      mapItems f st xs = .ok (ys, st') →
      st' = st ∨ st' = { st with pii_lookup := [] } := by
  intro st st' xs
  induction xs generalizing st with
  | nil =>
      intro ys h
      simp only [mapItems] at h
      cases h
      exact Or.inl rfl
  | cons x rest ih =>
      intro ys h
      simp only [mapItems] at h
      obtain ⟨⟨y, s1⟩, hy, h2⟩ := except_bind_ok_inv h
      obtain ⟨⟨ys1, s2⟩, hys, h3⟩ := except_bind_ok_inv h2
      have h4 := h3
      simp only [Pure.pure, Except.pure, Except.ok.injEq, Prod.mk.injEq] at h4
      obtain ⟨rfl, rfl⟩ := h4
      exact resetLike_trans (hf _ _ _ _ hy) (ih s1 _ hys)

theorem forEachItem_state (f : AnonState → Json → Except PyErr (Json × AnonState))
    (key : String)
    (hf : ∀ s s' x y, f s x = .ok (y, s') → s' = s ∨ s' = { s with pii_lookup := [] })
    (st st' : AnonState) (d d' : Json)
    (h : forEachItem f st d key = .ok (d', st')) :
    st' = st ∨ st' = { st with pii_lookup := [] } := by
  cases d with
  | obj kvs =>
      cases hk : alookup kvs key with
      | none =>
          simp [forEachItem, pyContains, hk,
            Bind.bind, Except.bind, Pure.pure, Except.pure] at h
          exact Or.inl h.2.symm
      | some container =>
          cases container <;>
            simp only [forEachItem, pyContains, pyGetItem, pyIter, pySetItem, hk,
              Option.isSome_some, if_true,
              Bind.bind, Except.bind, Pure.pure, Except.pure] at h
          case arr xs =>
            cases hm : mapItems f st xs with
            | error e => rw [hm] at h; cases h
            | ok p =>
                rw [hm] at h
                cases h
                exact mapItems_state f hf st _ xs _ hm
          case str s0 =>
            cases hm : mapItems f st (s0.data.map (fun c => Json.str (String.mk [c]))) with
            | error e => rw [hm] at h; cases h
            | ok p =>
                rw [hm] at h
                cases h
                exact mapItems_state f hf st _ _ _ hm
          case obj mkvs =>
            cases hm : mapItems f st (mkvs.map (fun kv => Json.str kv.1)) with
            | error e => rw [hm] at h; cases h
            | ok p =>
                rw [hm] at h
                cases h
                exact mapItems_state f hf st _ _ _ hm
          all_goals cases h
  | str s0 =>
      by_cases hc : pySubstr key s0
      · simp [forEachItem, pyContains, pyGetItem, hc,
          Bind.bind, Except.bind, Pure.pure, Except.pure] at h
      · simp [forEachItem, pyContains, pyGetItem, hc,
          Bind.bind, Except.bind, Pure.pure, Except.pure] at h
        exact Or.inl h.2.symm
  | arr xs =>
      by_cases hc : xs.any (fun z => jsonEqStr z key) = true
      · simp [forEachItem, pyContains, pyGetItem, hc,
          Bind.bind, Except.bind, Pure.pure, Except.pure] at h
      · simp [forEachItem, pyContains, pyGetItem, hc,
          Bind.bind, Except.bind, Pure.pure, Except.pure] at h
        exact Or.inl h.2.symm
  | null => simp [forEachItem, pyContains, Bind.bind, Except.bind] at h
  | int n => simp [forEachItem, pyContains, Bind.bind, Except.bind] at h
  | bool b => simp [forEachItem, pyContains, Bind.bind, Except.bind] at h

theorem resBirthDateBlock_pa (st : AnonState) (kvs : List (String × Json)) (v : Json)
    (hv : alookup kvs "birthDate" = some v) (hpa : st.preserve_age = true) :
    resBirthDateBlock st (.obj kvs) =
      .ok (.obj (aset kvs "birthDate" Json.null), { st with pii_lookup := [] }) := by
  simp [resBirthDateBlock, pyContains, pyGetItem, pySetItem, anonymize_pii, hv, hpa,
    Bind.bind, Except.bind, Pure.pure, Except.pure]

theorem resBirthDateBlock_npa (st : AnonState) (kvs : List (String × Json)) (v : Json)
    (hv : alookup kvs "birthDate" = some v) (hpa : st.preserve_age = false) :
    resBirthDateBlock st (.obj kvs) = .ok (.obj (adel kvs "birthDate"), st) := by
  simp [resBirthDateBlock, pyContains, pyGetItem, pyDelItem, hv, hpa,
    Bind.bind, Except.bind, Pure.pure, Except.pure]

theorem resBirthDateBlock_absent (st : AnonState) (kvs : List (String × Json))
    (hv : alookup kvs "birthDate" = none) :
    resBirthDateBlock st (.obj kvs) = .ok (.obj kvs, st) := by
  simp [resBirthDateBlock, pyContains, hv,
    Bind.bind, Except.bind, Pure.pure, Except.pure]

theorem resBirthDateBlock_rel (st st' : AnonState) (kvs : List (String × Json)) (y : Json)
    (h : resBirthDateBlock st (.obj kvs) = .ok (y, st')) :
    ∃ kvs', y = .obj kvs' ∧ (∀ k, k ≠ "birthDate" → alookup kvs' k = alookup kvs k) ∧
      ((alookup kvs "birthDate").isSome → st.preserve_age = true →
        alookup kvs' "birthDate" = some Json.null) ∧
      (st' = st ∨ st' = { st with pii_lookup := [] }) := by
  cases hv : alookup kvs "birthDate" with
  | none =>
      rw [resBirthDateBlock_absent st kvs hv] at h
      cases h
      exact ⟨kvs, rfl, fun _ _ => rfl, by simp [hv], Or.inl rfl⟩
  | some v =>
      by_cases hpa : st.preserve_age = true
      · rw [resBirthDateBlock_pa st kvs v hv hpa] at h
        cases h
        exact ⟨aset kvs "birthDate" Json.null, rfl,
          fun k hk => alookup_aset_ne _ _ _ _ (fun e => hk e.symm),
          fun _ _ => alookup_aset_self _ _ _, Or.inr rfl⟩
      · have hpa' : st.preserve_age = false := by
          cases hq : st.preserve_age
          · rfl
          · exact absurd hq hpa
        rw [resBirthDateBlock_npa st kvs v hv hpa'] at h
        cases h
        exact ⟨adel kvs "birthDate", rfl,
          fun k hk => alookup_adel_ne _ _ _ (fun e => hk e.symm),
          fun _ hc => absurd hc hpa, Or.inl rfl⟩

theorem metaBlock_none (kvs : List (String × Json)) (h : alookup kvs "meta" = none) :
    metaBlock (.obj kvs) =
      .ok (.obj (aset (aset (aset kvs "meta" (.obj []))
            "meta" (.obj [("security", .arr [])]))
            "meta" (.obj [("security", .arr [securityTag])]))) := by
  simp [metaBlock, pyContains, pyGetItem, pySetItem, h, alookup_aset_self, alookup, aset,
    Bind.bind, Except.bind, Pure.pure, Except.pure]

theorem metaBlock_obj_arr (kvs mkvs : List (String × Json)) (xs : List Json)
    (hm : alookup kvs "meta" = some (.obj mkvs))
    (hs : alookup mkvs "security" = some (.arr xs)) :
    metaBlock (.obj kvs) =
      .ok (.obj (aset kvs "meta" (.obj (aset mkvs "security" (.arr (xs ++ [securityTag])))))) := by
  simp [metaBlock, pyContains, pyGetItem, pySetItem, hm, hs, alookup_aset_self,
    Bind.bind, Except.bind, Pure.pure, Except.pure]

theorem metaBlock_obj_nosec (kvs mkvs : List (String × Json))
    (hm : alookup kvs "meta" = some (.obj mkvs))
    (hs : alookup mkvs "security" = none) :
    metaBlock (.obj kvs) =
      .ok (.obj (aset (aset kvs "meta" (.obj (aset mkvs "security" (.arr []))))
            "meta" (.obj (aset (aset mkvs "security" (.arr []))
              "security" (.arr [securityTag]))))) := by
  simp [metaBlock, pyContains, pyGetItem, pySetItem, hm, hs, alookup_aset_self,
    Bind.bind, Except.bind, Pure.pure, Except.pure]

theorem metaBlock_ok (kvs : List (String × Json)) (r' : Json)
    (h : metaBlock (.obj kvs) = .ok r') :
    ∃ kvs', r' = .obj kvs' ∧ (∀ k, k ≠ "meta" → alookup kvs' k = alookup kvs k) ∧
      ∃ mkvs sec, alookup kvs' "meta" = some (.obj mkvs) ∧
        alookup mkvs "security" = some (.arr (sec ++ [securityTag])) := by
  cases hm : alookup kvs "meta" with
  | none =>
      rw [metaBlock_none kvs hm] at h
      cases h
      refine ⟨_, rfl, ?_, [("security", .arr [securityTag])], [], ?_, ?_⟩
      · intro k hk
        rw [alookup_aset_ne _ _ _ _ (fun e => hk e.symm),
            alookup_aset_ne _ _ _ _ (fun e => hk e.symm),
            alookup_aset_ne _ _ _ _ (fun e => hk e.symm)]
      · exact alookup_aset_self _ _ _
      · simp [alookup]
  | some m =>
      cases m with
      | obj mkvs =>
          cases hs : alookup mkvs "security" with
          | some sv =>
              cases sv with
              | arr xs =>
                  rw [metaBlock_obj_arr kvs mkvs xs hm hs] at h
                  cases h
                  refine ⟨_, rfl, ?_,
                    aset mkvs "security" (.arr (xs ++ [securityTag])), xs, ?_, ?_⟩
                  · intro k hk
                    rw [alookup_aset_ne _ _ _ _ (fun e => hk e.symm)]
                  · exact alookup_aset_self _ _ _
                  · exact alookup_aset_self _ _ _
              | null => simp [metaBlock, pyContains, pyGetItem, pySetItem, hm, hs,
                          Bind.bind, Except.bind, Pure.pure, Except.pure] at h
              | str s0 => simp [metaBlock, pyContains, pyGetItem, pySetItem, hm, hs,
                            Bind.bind, Except.bind, Pure.pure, Except.pure] at h
              | int n => simp [metaBlock, pyContains, pyGetItem, pySetItem, hm, hs,
                           Bind.bind, Except.bind, Pure.pure, Except.pure] at h
              | bool b => simp [metaBlock, pyContains, pyGetItem, pySetItem, hm, hs,
                            Bind.bind, Except.bind, Pure.pure, Except.pure] at h
              | obj o => simp [metaBlock, pyContains, pyGetItem, pySetItem, hm, hs,
                           Bind.bind, Except.bind, Pure.pure, Except.pure] at h
          | none =>
              rw [metaBlock_obj_nosec kvs mkvs hm hs] at h
              cases h
              refine ⟨_, rfl, ?_,
                aset (aset mkvs "security" (.arr [])) "security" (.arr [securityTag]),
                [], ?_, ?_⟩
              · intro k hk
                rw [alookup_aset_ne _ _ _ _ (fun e => hk e.symm),
                    alookup_aset_ne _ _ _ _ (fun e => hk e.symm)]
              · exact alookup_aset_self _ _ _
              · simpa using alookup_aset_self (aset mkvs "security" (.arr [])) "security"
                  (.arr [securityTag])
      | str s0 =>
          by_cases hc : pySubstr "security" s0
          · simp [metaBlock, pyContains, pyGetItem, pySetItem, hm, hc,
              Bind.bind, Except.bind, Pure.pure, Except.pure] at h
          · simp [metaBlock, pyContains, pyGetItem, pySetItem, hm, hc,
              Bind.bind, Except.bind, Pure.pure, Except.pure] at h
      | arr xs =>
          by_cases hc : xs.any (fun z => jsonEqStr z "security") = true
          · simp [metaBlock, pyContains, pyGetItem, pySetItem, hm, hc,
              Bind.bind, Except.bind, Pure.pure, Except.pure] at h
          · simp [metaBlock, pyContains, pyGetItem, pySetItem, hm, hc,
              Bind.bind, Except.bind, Pure.pure, Except.pure] at h
      | null => simp [metaBlock, pyContains, pyGetItem, pySetItem, hm,
                  Bind.bind, Except.bind, Pure.pure, Except.pure] at h
      | int n => simp [metaBlock, pyContains, pyGetItem, pySetItem, hm,
                   Bind.bind, Except.bind, Pure.pure, Except.pure] at h
      | bool b => simp [metaBlock, pyContains, pyGetItem, pySetItem, hm,
                    Bind.bind, Except.bind, Pure.pure, Except.pure] at h

theorem resAddressItem_rel (s s' : AnonState) (x y : Json)
    (h : resAddressItem s x = .ok (y, s')) (kvsA : List (String × Json))
    (hx : x = .obj kvsA) :
    ∃ kvsO, y = .obj kvsO ∧
      ((alookup kvsA "text").isSome → alookup kvsO "text" = some Json.null) ∧
      (∀ ls, alookup kvsA "line" = some (.arr ls) →
        alookup kvsO "line" = some (.arr (ls.map fun _ => Json.null))) := by
  subst hx
  simp only [resAddressItem] at h
  obtain ⟨⟨d1, s1⟩, h1, h⟩ := except_bind_ok_inv h
  obtain ⟨kvs1, rfl, ht1, hf1⟩ := piiField_rel "ADDRESS" "text" s s1 _ d1 h1 kvsA rfl
  obtain ⟨kvs2, rfl, hl2, hf2⟩ := piiListField_rel "ADDRESS" "line" s1 s' _ y h kvs1 rfl
  refine ⟨kvs2, rfl, ?_, ?_⟩
  · intro hsome
    rw [hf2 "text" (by decide)]
    exact ht1 hsome
  · intro ls hls
    refine hl2 ls ?_
    rw [hf1 "line" (by decide)]
    exact hls


theorem anonymize_nonbundle (st : AnonState) (kvs : List (String × Json)) (rt : Json)
    (hrt : alookup kvs "resourceType" = some rt) (hne : jsonEqStr rt "Bundle" = false) :
    anonymize st (.obj kvs) = anonymize_resource st (.obj kvs) := by
  simp [anonymize, pyContains, pyGetItem, hrt, hne,
    Bind.bind, Except.bind, Pure.pure, Except.pure]

theorem anonymize_resource_patient (st : AnonState) (kvs : List (String × Json)) (r' : Json)
    (st' : AnonState)
    (htype : alookup kvs "resourceType" = some (.str "Patient"))
    (h : anonymize_resource st (.obj kvs) = .ok (r', st')) :
    ∃ p1 p2 p3 p4 p5 p6 m,
      forEachItem (piiField "ID" "value") st (.obj kvs) "identifier" = .ok p1 ∧
      forEachItem resNameItem p1.2 p1.1 "name" = .ok p2 ∧
      resBirthDateBlock p2.2 p2.1 = .ok p3 ∧
      forEachItem resTelecomItem p3.2 p3.1 "telecom" = .ok p4 ∧
      forEachItem resAddressItem p4.2 p4.1 "address" = .ok p5 ∧
      piiField "ID" "id" p5.2 p5.1 = .ok p6 ∧
      metaBlock p6.1 = .ok m ∧ r' = m ∧ st' = p6.2 := by
  simp only [anonymize_resource, pyDictGet, htype, Option.getD_some, jsonEqStr,
    Bind.bind, Except.bind, Pure.pure, Except.pure] at h
  rw [if_pos (by decide : (("Patient" : String) == "Patient") = true)] at h
  cases h1 : forEachItem (piiField "ID" "value") st (.obj kvs) "identifier" with
  | error e => rw [h1] at h; cases h
  | ok p1 =>
    simp only [h1] at h
    cases h2 : forEachItem resNameItem p1.2 p1.1 "name" with
    | error e => rw [h2] at h; cases h
    | ok p2 =>
      simp only [h2] at h
      cases h3 : resBirthDateBlock p2.2 p2.1 with
      | error e => rw [h3] at h; cases h
      | ok p3 =>
        simp only [h3] at h
        cases h4 : forEachItem resTelecomItem p3.2 p3.1 "telecom" with
        | error e => rw [h4] at h; cases h
        | ok p4 =>
          simp only [h4] at h
          cases h5 : forEachItem resAddressItem p4.2 p4.1 "address" with
          | error e => rw [h5] at h; cases h
          | ok p5 =>
            simp only [h5] at h
            cases h6 : piiField "ID" "id" p5.2 p5.1 with
            | error e => rw [h6] at h; cases h
            | ok p6 =>
              simp only [h6] at h
              cases h7 : metaBlock p6.1 with
              | error e => rw [h7] at h; cases h
              | ok m =>
                simp only [h7] at h
                injection h with h8
                injection h8 with hA hB
                subst hA
                subst hB
                exact ⟨p1, p2, p3, p4, p5, p6, m, rfl, h2, h3, h4, h5, h6, h7, rfl, rfl⟩


/-- Claim C3: `Anonymizer.anonymize` routes fields through `_anonymize_pii`,
which has no `return` statement: every routed field (the resource `id`, and
for Patient resources every `identifier[].value`, `name[].text`/`family`/each
`given` element, `telecom[].value`, `address[].text`/each `line` element, and
`birthDate` when `preserve_age`) becomes `None` in the output, and each such
call resets the instance's `pii_lookup` vault to an empty mapping. -/
theorem C3_theorem (st st' : AnonState) (kvs : List (String × Json)) (r' : Json)
    (hrun : anonymize st (.obj kvs) = .ok (r', st'))
    (htype : alookup kvs "resourceType" = some (.str "Patient")) :
    (∀ (s : AnonState) (x : Json) (k : String),
       anonymize_pii s x k = (Json.null, { s with pii_lookup := [] })) ∧
    ((alookup kvs "id").isSome →
       jGet? r' "id" = some Json.null ∧ st'.pii_lookup = []) ∧
    (∀ ids, alookup kvs "identifier" = some (.arr ids) →
      ∃ ids', jGet? r' "identifier" = some (.arr ids') ∧ ids'.length = ids.length ∧
        ∀ i kvsI, ids.get? i = some (.obj kvsI) → (alookup kvsI "value").isSome →
          ∃ kvsO, ids'.get? i = some (.obj kvsO) ∧ alookup kvsO "value" = some Json.null) ∧
    (∀ names, alookup kvs "name" = some (.arr names) →
      ∃ names', jGet? r' "name" = some (.arr names') ∧ names'.length = names.length ∧
        ∀ i kvsN, names.get? i = some (.obj kvsN) →
          ∃ kvsO, names'.get? i = some (.obj kvsO) ∧
            ((alookup kvsN "text").isSome → alookup kvsO "text" = some Json.null) ∧
            ((alookup kvsN "family").isSome → alookup kvsO "family" = some Json.null) ∧
            (∀ gs, alookup kvsN "given" = some (.arr gs) →
               alookup kvsO "given" = some (.arr (gs.map fun _ => Json.null)))) ∧
    (∀ ts, alookup kvs "telecom" = some (.arr ts) →
      ∃ ts', jGet? r' "telecom" = some (.arr ts') ∧ ts'.length = ts.length ∧
        ∀ i kvsT, ts.get? i = some (.obj kvsT) → (alookup kvsT "value").isSome →
          ∃ kvsO, ts'.get? i = some (.obj kvsO) ∧ alookup kvsO "value" = some Json.null) ∧
    (∀ as0, alookup kvs "address" = some (.arr as0) →
      ∃ as', jGet? r' "address" = some (.arr as') ∧ as'.length = as0.length ∧
        ∀ i kvsA, as0.get? i = some (.obj kvsA) →
          ∃ kvsO, as'.get? i = some (.obj kvsO) ∧
            ((alookup kvsA "text").isSome → alookup kvsO "text" = some Json.null) ∧
            (∀ ls, alookup kvsA "line" = some (.arr ls) →
               alookup kvsO "line" = some (.arr (ls.map fun _ => Json.null)))) ∧
    ((alookup kvs "birthDate").isSome → st.preserve_age = true →
       jGet? r' "birthDate" = some Json.null) := by
  rw [anonymize_nonbundle st kvs _ htype (by decide)] at hrun
  obtain ⟨p1, p2, p3, p4, p5, p6, m, h1, h2, h3, h4, h5, h6, h7, rfl, rfl⟩ :=
    anonymize_resource_patient st kvs _ _ htype hrun
  -- block 1: identifier
  obtain ⟨kvs1, hp1, F1, C1i⟩ := forEachItem_spec (piiField "ID" "value") "identifier"
    (R := fun x y => ∀ kvsI, x = .obj kvsI →
      ∃ kvsO, y = .obj kvsO ∧ ((alookup kvsI "value").isSome → alookup kvsO "value" = some Json.null))
    (fun s s' x y hf kvsI hx => by
      obtain ⟨kvsO, hy, hv, _⟩ := piiField_rel "ID" "value" s s' x y hf kvsI hx
      exact ⟨kvsO, hy, hv⟩)
    st p1.2 kvs p1.1 (by rw [← h1])
  -- block 2: name
  rw [hp1] at h2
  obtain ⟨kvs2, hp2, F2, C2n⟩ := forEachItem_spec resNameItem "name"
    (R := fun x y => ∀ kvsN, x = .obj kvsN →
      ∃ kvsO, y = .obj kvsO ∧
        ((alookup kvsN "text").isSome → alookup kvsO "text" = some Json.null) ∧
        ((alookup kvsN "family").isSome → alookup kvsO "family" = some Json.null) ∧
        (∀ gs, alookup kvsN "given" = some (.arr gs) →
           alookup kvsO "given" = some (.arr (gs.map fun _ => Json.null))))
    (fun s s' x y hf kvsN hx => resNameItem_rel s s' x y hf kvsN hx)
    p1.2 p2.2 kvs1 p2.1 (by rw [← h2])
  -- block 3: birthDate
  rw [hp2] at h3
  obtain ⟨kvs3, hp3, F3, C3b, _⟩ :=
    resBirthDateBlock_rel p2.2 p3.2 kvs2 p3.1 (by rw [← h3])
  -- block 4: telecom
  rw [hp3] at h4
  obtain ⟨kvs4, hp4, F4, C4t⟩ := forEachItem_spec resTelecomItem "telecom"
    (R := fun x y => ∀ kvsT, x = .obj kvsT →
      ∃ kvsO, y = .obj kvsO ∧
        ((alookup kvsT "value").isSome → alookup kvsO "value" = some Json.null))
    (fun s s' x y hf kvsT hx => resTelecomItem_rel s s' x y hf kvsT hx)
    p3.2 p4.2 kvs3 p4.1 (by rw [← h4])
  -- block 5: address
  rw [hp4] at h5
  obtain ⟨kvs5, hp5, F5, C5a⟩ := forEachItem_spec resAddressItem "address"
    (R := fun x y => ∀ kvsA, x = .obj kvsA →
      ∃ kvsO, y = .obj kvsO ∧
        ((alookup kvsA "text").isSome → alookup kvsO "text" = some Json.null) ∧
        (∀ ls, alookup kvsA "line" = some (.arr ls) →
           alookup kvsO "line" = some (.arr (ls.map fun _ => Json.null))))
    (fun s s' x y hf kvsA hx => resAddressItem_rel s s' x y hf kvsA hx)
    p4.2 p5.2 kvs4 p5.1 (by rw [← h5])
  -- block 6: the id field
  rw [hp5] at h6
  obtain ⟨kvs6, hp6, hidv, F6⟩ :=
    piiField_rel "ID" "id" p5.2 p6.2 (.obj kvs5) p6.1 (by rw [← h6]) kvs5 rfl
  have hstate : (alookup kvs5 "id").isSome → p6.2.pii_lookup = [] := by
    intro hs
    rw [piiField_obj] at h6
    cases hid : alookup kvs5 "id" with
    | none => rw [hid] at hs; cases hs
    | some v =>
        rw [hid] at h6
        have : p6.2 = { p5.2 with pii_lookup := [] } := by
          injection h6 with h8
          exact (congrArg Prod.snd h8).symm
        rw [this]
  -- block 7: meta
  rw [hp6] at h7
  obtain ⟨kvs7, hp7, F7, _⟩ := metaBlock_ok kvs6 r' h7
  subst hp7
  -- state bookkeeping for preserve_age
  have hs1 := forEachItem_state _ "identifier"
    (fun s s' x y hh => piiField_state "ID" "value" s s' x y hh) st p1.2 _ p1.1 (by rw [← h1])
  have hs2 := forEachItem_state _ "name"
    (fun s s' x y hh => resNameItem_state s s' x y hh) p1.2 p2.2 _ p2.1 (by rw [← h2])
  have hpa2 : p2.2.preserve_age = st.preserve_age := by
    have e1 : p1.2.preserve_age = st.preserve_age := by
      rcases hs1 with h | h <;> rw [h]
    rcases hs2 with h | h <;> rw [h] <;> exact e1
  refine ⟨fun _ _ _ => rfl, ?_, ?_, ?_, ?_, ?_, ?_⟩
  · -- id
    intro hid
    have hid5 : (alookup kvs5 "id").isSome := by
      rw [F5 _ (by decide), F4 _ (by decide), F3 _ (by decide),
          F2 _ (by decide), F1 _ (by decide)]
      exact hid
    refine ⟨?_, hstate hid5⟩
    show alookup kvs7 "id" = some Json.null
    rw [F7 _ (by decide)]
    exact hidv hid5
  · -- identifier
    intro ids hids
    obtain ⟨ys, hys, hlen, hitems⟩ := C1i ids hids
    refine ⟨ys, ?_, hlen, ?_⟩
    · show alookup kvs7 "identifier" = some (.arr ys)
      rw [F7 _ (by decide), F6 _ (by decide), F5 _ (by decide), F4 _ (by decide),
          F3 _ (by decide), F2 _ (by decide)]
      exact hys
    · intro i kvsI hii hval
      obtain ⟨y, hy, hR⟩ := hitems i _ hii
      obtain ⟨kvsO, rfl, hvo⟩ := hR kvsI rfl
      exact ⟨kvsO, hy, hvo hval⟩
  · -- name
    intro names hnames
    have hnames1 : alookup kvs1 "name" = some (.arr names) := by
      rw [F1 _ (by decide)]
      exact hnames
    obtain ⟨ys, hys, hlen, hitems⟩ := C2n names hnames1
    refine ⟨ys, ?_, hlen, ?_⟩
    · show alookup kvs7 "name" = some (.arr ys)
      rw [F7 _ (by decide), F6 _ (by decide), F5 _ (by decide), F4 _ (by decide),
          F3 _ (by decide)]
      exact hys
    · intro i kvsN hii
      obtain ⟨y, hy, hR⟩ := hitems i _ hii
      obtain ⟨kvsO, rfl, ht, hf, hg⟩ := hR kvsN rfl
      exact ⟨kvsO, hy, ht, hf, hg⟩
  · -- telecom
    intro ts hts
    have hts3 : alookup kvs3 "telecom" = some (.arr ts) := by
      rw [F3 _ (by decide), F2 _ (by decide), F1 _ (by decide)]
      exact hts
    obtain ⟨ys, hys, hlen, hitems⟩ := C4t ts hts3
    refine ⟨ys, ?_, hlen, ?_⟩
    · show alookup kvs7 "telecom" = some (.arr ys)
      rw [F7 _ (by decide), F6 _ (by decide), F5 _ (by decide)]
      exact hys
    · intro i kvsT hii hval
      obtain ⟨y, hy, hR⟩ := hitems i _ hii
      obtain ⟨kvsO, rfl, hvo⟩ := hR kvsT rfl
      exact ⟨kvsO, hy, hvo hval⟩
  · -- address
    intro as0 has
    have has4 : alookup kvs4 "address" = some (.arr as0) := by
      rw [F4 _ (by decide), F3 _ (by decide), F2 _ (by decide), F1 _ (by decide)]
      exact has
    obtain ⟨ys, hys, hlen, hitems⟩ := C5a as0 has4
    refine ⟨ys, ?_, hlen, ?_⟩
    · show alookup kvs7 "address" = some (.arr ys)
      rw [F7 _ (by decide), F6 _ (by decide)]
      exact hys
    · intro i kvsA hii
      obtain ⟨y, hy, hR⟩ := hitems i _ hii
      obtain ⟨kvsO, rfl, ht, hl⟩ := hR kvsA rfl
      exact ⟨kvsO, hy, ht, hl⟩
  · -- birthDate
    intro hbd hpa
    have hbd2 : (alookup kvs2 "birthDate").isSome := by
      rw [F2 _ (by decide), F1 _ (by decide)]
      exact hbd
    have hnull := C3b hbd2 (by rw [hpa2, hpa])
    show alookup kvs7 "birthDate" = some Json.null
    rw [F7 _ (by decide), F6 _ (by decide), F5 _ (by decide), F4 _ (by decide)]
    exact hnull



/-- Claim C3 witness: the concrete Patient resource `c3kvs` under salt `"s"`:
`_anonymize_pii` returns `None` and clears the vault, and the run nulls the
`id` and `birthDate` and leaves the vault empty. -/
theorem C3_theorem_witness :
    anonymize_pii (mkAnonymizer "s" true true (fun _ => 0)) (Json.str "Jane") "NAME"
      = (Json.null, mkAnonymizer "s" true true (fun _ => 0)) ∧
    jGet? c3expected "id" = some Json.null ∧
    (mkAnonymizer "s" true true (fun _ => 0)).pii_lookup = [] ∧
    jGet? c3expected "birthDate" = some Json.null := by
  have H := C3_theorem (mkAnonymizer "s" true true (fun _ => 0))
    (mkAnonymizer "s" true true (fun _ => 0)) c3kvs c3expected (by rfl) (by rfl)
  exact ⟨H.1 (mkAnonymizer "s" true true (fun _ => 0)) (Json.str "Jane") "NAME",
    (H.2.1 (by rfl)).1, (H.2.1 (by rfl)).2, H.2.2.2.2.2.2 (by rfl) rfl⟩



theorem metaBlock_ok_obj (d r' : Json) (h : metaBlock d = .ok r') :
    ∃ kvs, d = .obj kvs := by
  cases d with
  | obj kvs => exact ⟨kvs, rfl⟩
  | str s0 =>
      by_cases hc : pySubstr "meta" s0
      · simp [metaBlock, pyContains, pyGetItem, pySetItem, hc,
          Bind.bind, Except.bind, Pure.pure, Except.pure] at h
      · simp [metaBlock, pyContains, pyGetItem, pySetItem, hc,
          Bind.bind, Except.bind, Pure.pure, Except.pure] at h
  | arr xs =>
      by_cases hc : xs.any (fun z => jsonEqStr z "meta") = true
      · simp [metaBlock, pyContains, pyGetItem, pySetItem, hc,
          Bind.bind, Except.bind, Pure.pure, Except.pure] at h
      · simp [metaBlock, pyContains, pyGetItem, pySetItem, hc,
          Bind.bind, Except.bind, Pure.pure, Except.pure] at h
  | null => simp [metaBlock, pyContains, Bind.bind, Except.bind] at h
  | int n => simp [metaBlock, pyContains, Bind.bind, Except.bind] at h
  | bool b => simp [metaBlock, pyContains, Bind.bind, Except.bind] at h

theorem anonymize_resource_meta (st st' : AnonState) (r r' : Json)
    (h : anonymize_resource st r = .ok (r', st')) :
    ∃ d, metaBlock d = .ok r' := by
  cases r with
  | obj kvs =>
      simp only [anonymize_resource, pyDictGet, Bind.bind, Except.bind,
        Pure.pure, Except.pure] at h
      repeat' (split at h)
      all_goals try (cases h)
      all_goals (rename_i hlast; exact ⟨_, hlast⟩)
  | null => simp [anonymize_resource, pyDictGet, Bind.bind, Except.bind] at h
  | str s0 => simp [anonymize_resource, pyDictGet, Bind.bind, Except.bind] at h
  | int n => simp [anonymize_resource, pyDictGet, Bind.bind, Except.bind] at h
  | bool b => simp [anonymize_resource, pyDictGet, Bind.bind, Except.bind] at h
  | arr xs => simp [anonymize_resource, pyDictGet, Bind.bind, Except.bind] at h



/-- Claim C5 counterexample: `anonymize_fhir` does not add a security tag — on
a one-Patient bundle it hashes the id but the output resource has no `meta`
key at all, so no `meta.security` marker is present. -/
theorem C5_counterexample :
    (anonymize_fhir (mkAnonymizer "s" true true (fun _ => 0)) c5bundle).map Prod.fst
      = .ok c5out ∧
    (jGet? (Json.obj [("resourceType", .str "Patient"),
        ("id", .str "ID-c57195a13a91")]) "meta").isSome = false := by
  exact ⟨by rfl, by rfl⟩

/-- Claim C5 (amended): the `meta.security` "anonymized" marker is appended by
the `anonymize` entry point (through `_anonymize_resource`), not by
`anonymize_fhir`: every resource `_anonymize_resource` returns successfully
carries `meta.security` ending in the appended marker with code
`"anonymized"`. -/
theorem C5_amended (st st' : AnonState) (r r' : Json)
    (h : anonymize_resource st r = .ok (r', st')) :
    ∃ kvs' mkvs sec, r' = .obj kvs' ∧ alookup kvs' "meta" = some (.obj mkvs) ∧
      alookup mkvs "security" = some (.arr (sec ++ [securityTag])) := by
  obtain ⟨d, hd⟩ := anonymize_resource_meta st st' r r' h
  obtain ⟨kvs, rfl⟩ := metaBlock_ok_obj d r' hd
  obtain ⟨kvs', hr', _, mkvs, sec, hm, hs⟩ := metaBlock_ok kvs r' hd
  exact ⟨kvs', mkvs, sec, hr', hm, hs⟩

/-- Claim C5 witness: the marker appended on a concrete Patient resource run
through `_anonymize_resource`. -/
theorem C5_amended_witness :
    ∃ kvs' mkvs sec,
      (Json.obj [("resourceType", Json.str "Patient"), ("id", Json.null),
        ("meta", Json.obj [("security", Json.arr [securityTag])])]) = .obj kvs' ∧
      alookup kvs' "meta" = some (.obj mkvs) ∧
      alookup mkvs "security" = some (.arr (sec ++ [securityTag])) :=
  C5_amended (mkAnonymizer "s" true true (fun _ => 0))
    (mkAnonymizer "s" true true (fun _ => 0))
    (Json.obj [("resourceType", .str "Patient"), ("id", .str "p1")])
    (Json.obj [("resourceType", Json.str "Patient"), ("id", Json.null),
      ("meta", Json.obj [("security", Json.arr [securityTag])])])
    (by rfl)




theorem processEntries_eq_mapItems : ∀ (st : AnonState) (es : List Json),
    processEntries st es = mapItems processEntry st es := by
  intro st es
  induction es generalizing st with
  | nil => rfl
  | cons e rest ih =>
      simp only [processEntries, mapItems]
      cases h1 : processEntry st e with
      | error e0 => simp [Bind.bind, Except.bind]
      | ok p => simp [Bind.bind, Except.bind, ih]

theorem processEntry_unrec (s s' : AnonState) (x y : Json)
    (h : processEntry s x = .ok (y, s'))
    (hu : recognizedType (entryResourceType x) = false) : y = x := by
  cases x with
  | obj kvsE =>
      cases hres : alookup kvsE "resource" with
      | none =>
          simp only [processEntry, pyDictGet, hres, Option.getD_none, Option.getD_some,
            jGet?, entryResourceType, Bind.bind, Except.bind, Pure.pure, Except.pure] at h
          simp only [alookup] at h
          simp only [hres, Option.isSome_none, Bool.false_eq_true, if_false] at h
          cases h
          rfl
      | some res =>
          cases res with
          | obj kvsR =>
              have hrt0 : entryResourceType (Json.obj kvsE)
                  = (alookup kvsR "resourceType").getD Json.null := by
                simp [entryResourceType, jGet?, hres]
              rw [hrt0] at hu
              simp only [recognizedType, Bool.or_eq_false_iff] at hu
              obtain ⟨⟨⟨u1, u2⟩, u3⟩, u4⟩ := hu
              simp only [processEntry, pyDictGet, hres, Option.getD_some,
                Bind.bind, Except.bind, Pure.pure, Except.pure, u1, u2, u3, u4,
                Bool.false_eq_true, if_false] at h
              simp only [Option.isSome_some, if_true] at h
              cases h
              rw [aset_eq_of_lookup kvsE "resource" _ hres]
          | null =>
              simp [processEntry, pyDictGet, hres,
                Bind.bind, Except.bind, Pure.pure, Except.pure] at h
          | str s0 =>
              simp [processEntry, pyDictGet, hres,
                Bind.bind, Except.bind, Pure.pure, Except.pure] at h
          | int n =>
              simp [processEntry, pyDictGet, hres,
                Bind.bind, Except.bind, Pure.pure, Except.pure] at h
          | bool b =>
              simp [processEntry, pyDictGet, hres,
                Bind.bind, Except.bind, Pure.pure, Except.pure] at h
          | arr xs =>
              simp [processEntry, pyDictGet, hres,
                Bind.bind, Except.bind, Pure.pure, Except.pure] at h
  | null => simp [processEntry, pyDictGet, Bind.bind, Except.bind] at h
  | str s0 => simp [processEntry, pyDictGet, Bind.bind, Except.bind] at h
  | int n => simp [processEntry, pyDictGet, Bind.bind, Except.bind] at h
  | bool b => simp [processEntry, pyDictGet, Bind.bind, Except.bind] at h
  | arr xs => simp [processEntry, pyDictGet, Bind.bind, Except.bind] at h



/-- C6: ("Other resource types are passed through unchanged.")  If
`anonymize_fhir` succeeds on a bundle whose `entry` list is `es`, the output
bundle is the input with `entry` replaced by an equal-length list in which
every entry whose resource's `resourceType` is not one of Patient,
Observation, MedicationStatement or Encounter appears unchanged at its
position. -/
theorem C6_theorem (st st' : AnonState) (kvs : List (String × Json))
    (es : List Json) (b' : Json)
    (hentry : alookup kvs "entry" = some (.arr es))
    (h : anonymize_fhir st (.obj kvs) = .ok (b', st')) :
    ∃ es', b' = .obj (aset kvs "entry" (.arr es')) ∧
      es'.length = es.length ∧
      ∀ i x, es.get? i = some x →
        recognizedType (entryResourceType x) = false → es'.get? i = some x := by
  simp only [anonymize_fhir, pyDictGet, hentry, Option.getD_some, pyIter,
    Bind.bind, Except.bind, Pure.pure, Except.pure] at h
  cases hpe : processEntries st es with
  | error e0 => rw [hpe] at h; cases h
  | ok r =>
      obtain ⟨es', s1⟩ := r
      rw [hpe] at h
      simp only [Except.ok.injEq, Prod.mk.injEq] at h
      obtain ⟨rfl, rfl⟩ := h
      refine ⟨es', rfl, ?_⟩
      rw [processEntries_eq_mapItems] at hpe
      have hR := mapItems_rel processEntry
        (fun s s' x y hf hu => processEntry_unrec s s' x y hf hu)
        st s1 es es' hpe
      refine ⟨hR.1, ?_⟩
      intro i x hx hu
      obtain ⟨y, hy, hxy⟩ := hR.2 i x hx
      rw [hy, hxy hu]

/-- Witness for C6 at a one-entry bundle whose resource is a
DiagnosticReport: the run succeeds and returns the entry unchanged. -/
theorem C6_theorem_witness :
    ∃ es', (Json.obj [("resourceType", Json.str "Bundle"),
        ("entry", Json.arr [Json.obj [("resource",
          Json.obj [("resourceType", Json.str "DiagnosticReport"),
                    ("id", Json.str "dr1")])]])]) =
      Json.obj (aset [("resourceType", Json.str "Bundle"),
        ("entry", Json.arr [Json.obj [("resource",
          Json.obj [("resourceType", Json.str "DiagnosticReport"),
                    ("id", Json.str "dr1")])]])] "entry" (Json.arr es')) ∧
      es'.length = 1 ∧
      ∀ i x, [Json.obj [("resource",
          Json.obj [("resourceType", Json.str "DiagnosticReport"),
                    ("id", Json.str "dr1")])]].get? i = some x →
        recognizedType (entryResourceType x) = false → es'.get? i = some x := by
  have := C6_theorem (mkAnonymizer "s" true true (fun _ => 0))
    (mkAnonymizer "s" true true (fun _ => 0))
    [("resourceType", Json.str "Bundle"),
     ("entry", Json.arr [Json.obj [("resource",
       Json.obj [("resourceType", Json.str "DiagnosticReport"),
                 ("id", Json.str "dr1")])]])]
    [Json.obj [("resource",
       Json.obj [("resourceType", Json.str "DiagnosticReport"),
                 ("id", Json.str "dr1")])]]
    (Json.obj [("resourceType", Json.str "Bundle"),
     ("entry", Json.arr [Json.obj [("resource",
       Json.obj [("resourceType", Json.str "DiagnosticReport"),
                 ("id", Json.str "dr1")])]])])
    (by rfl) (by rfl)
  obtain ⟨es', h1, h2, h3⟩ := this
  exact ⟨es', h1, by simpa using h2, h3⟩



/-- C4 counterexample: a bundle whose single malformed field is a Patient
`birthDate` that does not parse makes `anonymize_fhir` raise
`AnonymizationError` instead of skipping the field or applying the hash
fallback. -/
theorem C4_counterexample :
    anonymize_fhir (mkAnonymizer "s" true true (fun _ => 0)) (c4bundle "unknown")
      = .error (.anonymizationError .valueError) := by rfl

/-- C4 amended: with `preserve_age` on, ANY unparseable Patient `birthDate`
aborts the whole bundle with `AnonymizationError` wrapping the parse error;
the date-hash fallback lives only in `_anonymize_identifier`, which the
`anonymize_fhir` path never consults for birthDate. -/
theorem C4_amended (st : AnonState) (bd : String) (e : PyErr)
    (hpa : st.preserve_age = true)
    (hparse : strptimeYmd bd = .error e) :
    anonymize_fhir st (c4bundle bd) = .error (.anonymizationError e) := by
  simp [anonymize_fhir, c4bundle, processEntries, processEntry, anonymize_patient,
    patientIdBlock, forEachItem, patientBirthDateBlock, pyDictGet, pyIter, pyContains,
    pyGetItem, alookup, hpa, hparse, Bind.bind, Except.bind, Pure.pure, Except.pure,
    jsonEqStr, pyTruthy]

/-- Witness for C4 amended at `birthDate = "not-a-date"`. -/
theorem C4_amended_witness :
    anonymize_fhir (mkAnonymizer "w" true true (fun _ => 0)) (c4bundle "not-a-date")
      = .error (.anonymizationError .valueError) :=
  C4_amended (mkAnonymizer "w" true true (fun _ => 0)) "not-a-date" .valueError rfl rfl



theorem md_roundtrip : ∀ (m : Fin 12) (dd : Fin 31),
    mdParse ((pad2 (m.val + 1)).data ++ '-' :: (pad2 (dd.val + 1)).data)
      = some (m.val + 1, dd.val + 1) := by decide



theorem char_le_toNat (a b : Char) : (a ≤ b) ↔ a.toNat ≤ b.toNat := Iff.rfl

theorem isDigit_iff (c : Char) : c.isDigit = true ↔ 48 ≤ c.toNat ∧ c.toNat ≤ 57 := by
  simp [Char.isDigit, char_le_toNat]
  constructor
  · intro h; exact ⟨h.1, h.2⟩
  · intro h; exact ⟨h.1, h.2⟩

theorem digitChar_facts : ∀ a : Fin 10,
    (Nat.digitChar a.val).isDigit = true ∧ (Nat.digitChar a.val).toNat = 48 + a.val := by
  decide

theorem toDigitsCore_succ (b f n : Nat) (acc : List Char) :
    Nat.toDigitsCore b (f + 1) n acc =
      if n / b = 0 then Nat.digitChar (n % b) :: acc
      else Nat.toDigitsCore b f (n / b) (Nat.digitChar (n % b) :: acc) := rfl

theorem toDigitsCore_four (f n : Nat) (h1 : 1000 ≤ n) (h2 : n < 10000) (acc : List Char) :
    Nat.toDigitsCore 10 (f + 4) n acc =
      Nat.digitChar (n / 1000) :: Nat.digitChar (n / 100 % 10) ::
        Nat.digitChar (n / 10 % 10) :: Nat.digitChar (n % 10) :: acc := by
  have e1 : ¬ (n / 10 = 0) := by omega
  have e2 : ¬ (n / 10 / 10 = 0) := by omega
  have e3 : ¬ (n / 10 / 10 / 10 = 0) := by omega
  have e4 : n / 10 / 10 / 10 / 10 = 0 := by omega
  rw [toDigitsCore_succ, if_neg e1, toDigitsCore_succ, if_neg e2,
      toDigitsCore_succ, if_neg e3, toDigitsCore_succ, if_pos e4]
  have q1 : n / 10 / 10 / 10 % 10 = n / 1000 := by omega
  have q2 : n / 10 / 10 % 10 = n / 100 % 10 := by omega
  rw [q1, q2]

theorem repr_four (n : Nat) (h1 : 1000 ≤ n) (h2 : n ≤ 9999) :
    (Nat.repr n).data = [Nat.digitChar (n / 1000), Nat.digitChar (n / 100 % 10),
      Nat.digitChar (n / 10 % 10), Nat.digitChar (n % 10)] := by
  unfold Nat.repr Nat.toDigits
  have e : n + 1 = (n - 3) + 4 := by omega
  rw [e, toDigitsCore_four (n - 3) n h1 (by omega)]
  rfl

theorem int_toString_ofNat (n : Nat) : toString (Int.ofNat n) = Nat.repr n := rfl

theorem str_data_append (a b : String) : (a ++ b).data = a.data ++ b.data := by
  cases a; cases b; rfl



theorem daysInMonth_bounds (y : Int) (m : Nat) (h1 : 1 ≤ m) (h2 : m ≤ 12) :
    28 ≤ daysInMonth y m ∧ daysInMonth y m ≤ 31 := by
  unfold daysInMonth
  interval_cases m <;> simp <;> cases isLeap y <;> simp

theorem nextDay_valid (d : PyDate) (h : validDate d) : validDate (nextDay d) := by
  obtain ⟨h1, h2, h3, h4⟩ := h
  unfold nextDay
  split
  · rename_i hlt
    exact ⟨h1, h2, by dsimp only; omega, by dsimp only; omega⟩
  · split
    · have := (daysInMonth_bounds d.year (d.month + 1) (by omega) (by omega)).1
      exact ⟨by dsimp only; omega, by dsimp only; omega, by dsimp only; omega,
             by dsimp only; omega⟩
    · have := (daysInMonth_bounds (d.year + 1) 1 (by omega) (by omega)).1
      exact ⟨by dsimp only; omega, by dsimp only; omega, by dsimp only; omega,
             by dsimp only; omega⟩

theorem prevDay_valid (d : PyDate) (h : validDate d) : validDate (prevDay d) := by
  obtain ⟨h1, h2, h3, h4⟩ := h
  unfold prevDay
  split
  · rename_i hlt
    exact ⟨h1, h2, by dsimp only; omega, by dsimp only; omega⟩
  · split
    · have := (daysInMonth_bounds d.year (d.month - 1) (by rename_i hm; omega)
        (by omega)).1
      exact ⟨by dsimp only; omega, by dsimp only; omega, by dsimp only; omega,
             by dsimp only; omega⟩
    · have := (daysInMonth_bounds (d.year - 1) 12 (by omega) (by omega)).1
      have h31 := (daysInMonth_bounds (d.year - 1) 12 (by omega) (by omega)).2
      refine ⟨by dsimp only; omega, by dsimp only; omega, by dsimp only; omega, ?_⟩
      dsimp only
      unfold daysInMonth
      simp

theorem iterate_nextDay_valid (n : Nat) (d : PyDate) (h : validDate d) :
    validDate (nextDay^[n] d) := by
  induction n generalizing d with
  | zero => simpa using h
  | succ k ih =>
      rw [Function.iterate_succ_apply]
      exact ih (nextDay d) (nextDay_valid d h)

theorem iterate_prevDay_valid (n : Nat) (d : PyDate) (h : validDate d) :
    validDate (prevDay^[n] d) := by
  induction n generalizing d with
  | zero => simpa using h
  | succ k ih =>
      rw [Function.iterate_succ_apply]
      exact ih (prevDay d) (prevDay_valid d h)

theorem addDays_valid (d : PyDate) (k : Int) (h : validDate d) :
    validDate (addDays d k) := by
  unfold addDays
  cases k with
  | ofNat n => exact iterate_nextDay_valid n d h
  | negSucc n => exact iterate_prevDay_valid (n + 1) d h

theorem firstOk_mem {α β : Type} (f : α → Option β) :
    ∀ (xs : List α) (b : β), firstOk f xs = some b → ∃ a ∈ xs, f a = some b
  | [], b, h => by simp [firstOk] at h
  | x :: xs, b, h => by
      simp only [firstOk] at h
      cases hx : f x with
      | some y =>
          rw [hx] at h
          cases h
          exact ⟨x, List.mem_cons_self x xs, hx⟩
      | none =>
          rw [hx] at h
          obtain ⟨a, ha, hfa⟩ := firstOk_mem f xs b h
          exact ⟨a, List.mem_cons_of_mem x ha, hfa⟩

theorem monthMatches_mem : ∀ (cs : List Char) (p : Nat × List Char),
    p ∈ monthMatches cs → 1 ≤ p.1 ∧ p.1 ≤ 12 := by
  intro cs p h
  have k0 : ('0' : Char).toNat = 48 := rfl
  have k1 : ('1' : Char).toNat = 49 := rfl
  have k2 : ('2' : Char).toNat = 50 := rfl
  have k9 : ('9' : Char).toNat = 57 := rfl
  match cs with
  | [] => simp [monthMatches] at h
  | [c1] =>
      simp only [monthMatches] at h
      split at h
      · rename_i hc
        obtain ⟨hcl, hcr⟩ := hc
        rw [char_le_toNat] at hcl hcr
        simp only [List.mem_singleton] at h
        subst h
        omega
      · simp at h
  | c1 :: c2 :: rest =>
      simp only [monthMatches, List.mem_append] at h
      rcases h with (h | h) | h
      · split at h
        · rename_i hc
          obtain ⟨_, hcl, hcr⟩ := hc
          rw [char_le_toNat] at hcl hcr
          simp only [List.mem_singleton] at h
          subst h
          omega
        · simp at h
      · split at h
        · rename_i hc
          obtain ⟨_, hcl, hcr⟩ := hc
          rw [char_le_toNat] at hcl hcr
          simp only [List.mem_singleton] at h
          subst h
          omega
        · simp at h
      · split at h
        · rename_i hc
          obtain ⟨hcl, hcr⟩ := hc
          rw [char_le_toNat] at hcl hcr
          simp only [List.mem_singleton] at h
          subst h
          omega
        · simp at h

theorem dayMatches_mem : ∀ (cs : List Char) (p : Nat × List Char),
    p ∈ dayMatches cs → 1 ≤ p.1 ∧ p.1 ≤ 31 := by
  intro cs p h
  have k0 : ('0' : Char).toNat = 48 := rfl
  have k1 : ('1' : Char).toNat = 49 := rfl
  have k2 : ('2' : Char).toNat = 50 := rfl
  have k3 : ('3' : Char).toNat = 51 := rfl
  have k9 : ('9' : Char).toNat = 57 := rfl
  match cs with
  | [] => simp [dayMatches] at h
  | [c1] =>
      simp only [dayMatches] at h
      split at h
      · rename_i hc
        obtain ⟨hcl, hcr⟩ := hc
        rw [char_le_toNat] at hcl hcr
        simp only [List.mem_singleton] at h
        subst h
        omega
      · simp at h
  | c1 :: c2 :: rest =>
      simp only [dayMatches, List.mem_append] at h
      rcases h with ((h | h) | h) | h
      · split at h
        · rename_i hc
          obtain ⟨hc1, hc2⟩ := hc
          have hv : c2.toNat = 48 ∨ c2.toNat = 49 := by
            rcases hc2 with h2 | h2 <;> subst h2 <;> simp [k0, k1]
          simp only [List.mem_singleton] at h
          subst h
          omega
        · simp at h
      · split at h
        · rename_i hc
          obtain ⟨hc1, hc2⟩ := hc
          rw [isDigit_iff] at hc2
          have hv : c1.toNat = 49 ∨ c1.toNat = 50 := by
            rcases hc1 with h2 | h2 <;> subst h2 <;> simp [k1, k2]
          simp only [List.mem_singleton] at h
          subst h
          omega
        · simp at h
      · split at h
        · rename_i hc
          obtain ⟨_, hcl, hcr⟩ := hc
          rw [char_le_toNat] at hcl hcr
          simp only [List.mem_singleton] at h
          subst h
          omega
        · simp at h
      · split at h
        · rename_i hc
          obtain ⟨hcl, hcr⟩ := hc
          rw [char_le_toNat] at hcl hcr
          simp only [List.mem_singleton] at h
          subst h
          omega
        · simp at h

theorem mdParse_mem (rest : List Char) (m dd : Nat)
    (h : mdParse rest = some (m, dd)) :
    1 ≤ m ∧ m ≤ 12 ∧ 1 ≤ dd ∧ dd ≤ 31 := by
  obtain ⟨md, hmem, hf⟩ := firstOk_mem _ _ _ h
  have hm := monthMatches_mem rest md hmem
  split at hf
  · rename_i rest3 h2
    obtain ⟨q, hqmem, hq⟩ := firstOk_mem _ _ _ hf
    have hd := dayMatches_mem rest3 q hqmem
    split at hq
    · simp only [Option.some.injEq, Prod.mk.injEq] at hq
      obtain ⟨rfl, rfl⟩ := hq
      exact ⟨hm.1, hm.2, hd.1, hd.2⟩
    · cases hq
  · cases hf

theorem strptime_valid (s : String) (d : PyDate) (h : strptimeYmd s = .ok d) :
    validDate d ∧ d.year ≠ 0 := by
  simp only [strptimeYmd] at h
  split at h
  · rename_i y1 y2 y3 y4 rest heq
    split at h
    · split at h
      · rename_i p m dd hmd
        split at h
        · cases h
        · split at h
          · rename_i hy0 hle
            cases h
            have hb := mdParse_mem rest m dd hmd
            exact ⟨⟨hb.1, hb.2.1, hb.2.2.1, hle⟩, hy0⟩
          · cases h
      · cases h
    · cases h
  · cases h



theorem strftime_strptime (d : PyDate) (hv : validDate d)
    (hy1 : 1000 ≤ d.year) (hy2 : d.year ≤ 9999) :
    strptimeYmd (strftimeYmd d) = .ok d := by
  obtain ⟨year, m, day⟩ := d
  obtain ⟨h1, h2, h3, h4⟩ := hv
  dsimp only at h1 h2 h3 h4 hy1 hy2
  obtain ⟨n, rfl⟩ : ∃ n : Nat, year = (n : Int) :=
    ⟨year.toNat, (Int.toNat_of_nonneg (by omega)).symm⟩
  have hn1 : 1000 ≤ n := by omega
  have hn2 : n ≤ 9999 := by omega
  have hd31 : day ≤ 31 := by
    have := (daysInMonth_bounds (n : Int) m h1 h2).2
    omega
  have hdata : (strftimeYmd ⟨(n : Int), m, day⟩).data
      = Nat.digitChar (n / 1000) :: Nat.digitChar (n / 100 % 10) ::
        Nat.digitChar (n / 10 % 10) :: Nat.digitChar (n % 10) ::
        '-' :: ((pad2 m).data ++ '-' :: (pad2 day).data) := by
    show (toString (Int.ofNat n) ++ "-" ++ pad2 m ++ "-" ++ pad2 day).data = _
    simp only [str_data_append]
    rw [int_toString_ofNat, repr_four n hn1 hn2]
    simp
  have dig1 := digitChar_facts ⟨n / 1000, by omega⟩
  have dig2 := digitChar_facts ⟨n / 100 % 10, by omega⟩
  have dig3 := digitChar_facts ⟨n / 10 % 10, by omega⟩
  have dig4 := digitChar_facts ⟨n % 10, by omega⟩
  simp only at dig1 dig2 dig3 dig4
  simp only [strptimeYmd, hdata]
  rw [if_pos ⟨dig1.1, dig2.1, dig3.1, dig4.1⟩]
  have hmd := md_roundtrip ⟨m - 1, by omega⟩ ⟨day - 1, by omega⟩
  simp only at hmd
  have em : m - 1 + 1 = m := by omega
  have ed : day - 1 + 1 = day := by omega
  rw [em, ed] at hmd
  rw [hmd]
  rw [dig1.2, dig2.2, dig3.2, dig4.2]
  have ey : ((((48 + n / 1000 - 48) * 10 + (48 + n / 100 % 10 - 48)) * 10 +
      (48 + n / 10 % 10 - 48)) * 10 + (48 + n % 10 - 48)) = n := by omega
  rw [ey]
  have h4' : day ≤ daysInMonth (Int.ofNat n) m := h4
  have hz : ¬ (Int.ofNat n = 0) := (by omega : ¬ ((n : Int) = 0))
  dsimp only
  rw [if_neg hz, if_pos h4']
  rfl


theorem countKey_aset_ne {α : Type} (l : List (String × α)) (k key : String) (v : α)
    (h : k ≠ key) : countKey (aset l key v) k = countKey l k := by
  induction l with
  | nil => simp [aset, countKey, Ne.symm h]
  | cons p rest ih =>
      obtain ⟨pk, pv⟩ := p
      by_cases hp : pk = key
      · subst hp
        simp [aset, countKey]
      · simp only [aset, if_neg hp, countKey]
        rw [ih]

theorem countKey_zero_lookup {α : Type} (l : List (String × α)) (k : String)
    (h : countKey l k = 0) : alookup l k = none := by
  induction l with
  | nil => rfl
  | cons p rest ih =>
      obtain ⟨pk, pv⟩ := p
      simp only [countKey] at h
      by_cases hp : pk = k
      · simp [hp] at h
      · simp only [alookup, if_neg hp]
        exact ih (by omega)

theorem alookup_adel_once {α : Type} (l : List (String × α)) (k : String)
    (h : countKey l k ≤ 1) : alookup (adel l k) k = none := by
  induction l with
  | nil => rfl
  | cons p rest ih =>
      obtain ⟨pk, pv⟩ := p
      simp only [countKey] at h
      by_cases hp : pk = k
      · subst hp
        simp only [adel, if_pos rfl]
        exact countKey_zero_lookup rest pk (by simp at h; omega)
      · simp only [adel, if_neg hp, alookup, countKey]
        exact ih (by omega)

theorem forEachItem_struct (f : AnonState → Json → Except PyErr (Json × AnonState))
    (st st' : AnonState) (kvs : List (String × Json)) (key : String) (p' : Json)
    (h : forEachItem f st (.obj kvs) key = .ok (p', st')) :
    p' = .obj kvs ∨ ∃ v, p' = .obj (aset kvs key v) := by
  simp only [forEachItem, pyContains, Bind.bind, Except.bind, Pure.pure, Except.pure] at h
  by_cases hk : (alookup kvs key).isSome
  · rw [if_pos hk] at h
    cases hv : alookup kvs key with
    | none => rw [hv] at hk; cases hk
    | some v =>
        simp only [pyGetItem, hv] at h
        cases v with
        | arr xs =>
            simp only [pyIter] at h
            cases hm : mapItems f st xs with
            | error e => rw [hm] at h; cases h
            | ok r =>
                rw [hm] at h
                simp only [pySetItem, Except.ok.injEq, Prod.mk.injEq] at h
                exact Or.inr ⟨.arr r.1, h.1.symm⟩
        | str s0 =>
            simp only [pyIter] at h
            cases hm : mapItems f st (s0.data.map (fun c => Json.str (String.mk [c]))) with
            | error e => rw [hm] at h; cases h
            | ok r =>
                rw [hm] at h
                simp only [Except.ok.injEq, Prod.mk.injEq] at h
                exact Or.inl h.1.symm
        | obj kvs2 =>
            simp only [pyIter] at h
            cases hm : mapItems f st (kvs2.map (fun kv => Json.str kv.1)) with
            | error e => rw [hm] at h; cases h
            | ok r =>
                rw [hm] at h
                simp only [Except.ok.injEq, Prod.mk.injEq] at h
                exact Or.inl h.1.symm
        | null => simp only [pyIter] at h; cases h
        | int n => simp only [pyIter] at h; cases h
        | bool b => simp only [pyIter] at h; cases h
  · rw [if_neg hk] at h
    simp only [Except.ok.injEq, Prod.mk.injEq] at h
    exact Or.inl h.1.symm

theorem patientIdBlock_struct (st st' : AnonState) (kvs : List (String × Json)) (p' : Json)
    (h : patientIdBlock st (.obj kvs) = .ok (p', st')) :
    p' = .obj kvs ∨ ∃ v, p' = .obj (aset kvs "id" v) := by
  simp only [patientIdBlock, pyDictGet, Bind.bind, Except.bind, Pure.pure, Except.pure] at h
  by_cases ht : pyTruthy ((alookup kvs "id").getD Json.null)
  · rw [if_pos ht] at h
    simp only [pySetItem, pyGetItem, alookup_aset_self, Except.ok.injEq,
      Prod.mk.injEq] at h
    exact Or.inr ⟨_, h.1.symm⟩
  · rw [if_neg ht] at h
    simp only [Except.ok.injEq, Prod.mk.injEq] at h
    exact Or.inl h.1.symm



theorem anonymize_identifier_cfg (st : AnonState) (x k : String) :
    cfg (anonymize_identifier st x k).2 = cfg st := by
  unfold anonymize_identifier
  cases hl : alookup st.pii_lookup (k ++ ":" ++ x) with
  | some v => simp [hl]
  | none =>
      simp only [hl]
      repeat' split
      all_goals rfl


theorem anonField_cfg (kind key : String) (s s' : AnonState) (x y : Json)
    (h : anonField kind key s x = .ok (y, s')) : cfg s' = cfg s := by
  cases x with
  | obj kvs =>
      cases hk : alookup kvs key with
      | none =>
          simp [anonField, pyContains, hk,
            Bind.bind, Except.bind, Pure.pure, Except.pure] at h
          rw [h.2]
      | some v =>
          simp only [anonField, pyContains, pyGetItem, pySetItem, hk,
            Option.isSome_some, if_true,
            Bind.bind, Except.bind, Pure.pure, Except.pure, Except.ok.injEq,
            Prod.mk.injEq] at h
          rw [← h.2]
          exact anonymize_identifier_cfg s (pyStr v) kind
  | str s0 =>
      by_cases hc : pySubstr key s0
      · simp [anonField, pyContains, pyGetItem, hc,
          Bind.bind, Except.bind, Pure.pure, Except.pure] at h
      · simp [anonField, pyContains, pyGetItem, hc,
          Bind.bind, Except.bind, Pure.pure, Except.pure] at h
        rw [h.2]
  | arr xs =>
      by_cases hc : xs.any (fun z => jsonEqStr z key) = true
      · simp [anonField, pyContains, pyGetItem, hc,
          Bind.bind, Except.bind, Pure.pure, Except.pure] at h
      · simp [anonField, pyContains, pyGetItem, hc,
          Bind.bind, Except.bind, Pure.pure, Except.pure] at h
        rw [h.2]
  | null => simp [anonField, pyContains, Bind.bind, Except.bind] at h
  | int n => simp [anonField, pyContains, Bind.bind, Except.bind] at h
  | bool b => simp [anonField, pyContains, Bind.bind, Except.bind] at h

theorem anonStrList_cfg (kind : String) :
    ∀ (s : AnonState) (xs : List Json), cfg (anonStrList kind s xs).2 = cfg s
  | s, [] => rfl
  | s, x :: xs => by
      simp only [anonStrList]
      rw [anonStrList_cfg kind _ xs, anonymize_identifier_cfg]

theorem anonListField_cfg (kind key : String) (s s' : AnonState) (x y : Json)
    (h : anonListField kind key s x = .ok (y, s')) : cfg s' = cfg s := by
  cases x with
  | obj kvs =>
      cases hk : alookup kvs key with
      | none =>
          simp [anonListField, pyContains, hk,
            Bind.bind, Except.bind, Pure.pure, Except.pure] at h
          rw [h.2]
      | some v =>
          simp only [anonListField, pyContains, pyDictGet, pySetItem, hk,
            Option.isSome_some, if_true, Option.getD_some,
            Bind.bind, Except.bind, Pure.pure, Except.pure] at h
          cases v with
          | arr xs =>
              simp only [pyIter, pySetItem, Bind.bind, Except.bind, Pure.pure,
                Except.pure, Except.ok.injEq, Prod.mk.injEq] at h
              rw [← h.2]
              exact anonStrList_cfg kind s xs
          | null => simp [pyIter] at h
          | int n => simp [pyIter] at h
          | bool b => simp [pyIter] at h
          | str s0 =>
              simp only [pyIter, pySetItem, Bind.bind, Except.bind, Pure.pure,
                Except.pure, Except.ok.injEq, Prod.mk.injEq] at h
              rw [← h.2]
              exact anonStrList_cfg kind s _
          | obj kvs2 =>
              simp only [pyIter, pySetItem, Bind.bind, Except.bind, Pure.pure,
                Except.pure, Except.ok.injEq, Prod.mk.injEq] at h
              rw [← h.2]
              exact anonStrList_cfg kind s _
  | str s0 =>
      by_cases hc : pySubstr key s0
      · simp [anonListField, pyContains, pyDictGet, hc,
          Bind.bind, Except.bind, Pure.pure, Except.pure] at h
      · simp [anonListField, pyContains, pyDictGet, hc,
          Bind.bind, Except.bind, Pure.pure, Except.pure] at h
        rw [h.2]
  | arr xs =>
      by_cases hc : xs.any (fun z => jsonEqStr z key) = true
      · simp [anonListField, pyContains, pyDictGet, hc,
          Bind.bind, Except.bind, Pure.pure, Except.pure] at h
      · simp [anonListField, pyContains, pyDictGet, hc,
          Bind.bind, Except.bind, Pure.pure, Except.pure] at h
        rw [h.2]
  | null => simp [anonListField, pyContains, Bind.bind, Except.bind] at h
  | int n => simp [anonListField, pyContains, Bind.bind, Except.bind] at h
  | bool b => simp [anonListField, pyContains, Bind.bind, Except.bind] at h



theorem fhirNameItem_cfg (s s' : AnonState) (x y : Json)
    (h : fhirNameItem s x = .ok (y, s')) : cfg s' = cfg s := by
  simp only [fhirNameItem, Bind.bind, Except.bind] at h
  cases h1 : anonListField "NAME" "given" s x with
  | error e => rw [h1] at h; cases h
  | ok p1 =>
      simp only [h1] at h
      cases h2 : anonField "NAME" "family" p1.2 p1.1 with
      | error e => rw [h2] at h; cases h
      | ok p2 =>
          simp only [h2] at h
          have c1 := anonListField_cfg "NAME" "given" s p1.2 x p1.1 h1
          have c2 := anonField_cfg "NAME" "family" p1.2 p2.2 p1.1 p2.1 h2
          have c3 := anonField_cfg "NAME" "text" p2.2 s' p2.1 y h
          rw [c3, c2, c1]

theorem fhirTelecomItem_cfg (s s' : AnonState) (x y : Json)
    (h : fhirTelecomItem s x = .ok (y, s')) : cfg s' = cfg s := by
  simp only [fhirTelecomItem, Bind.bind, Except.bind] at h
  cases h0 : pyDictGet x "system" Json.null with
  | error e => rw [h0] at h; cases h
  | ok sysv =>
      simp only [h0] at h
      by_cases hp : jsonEqStr sysv "phone" = true
      · rw [if_pos hp] at h
        cases h1 : pyContains x "value" with
        | error e => rw [h1] at h; cases h
        | ok b =>
            simp only [h1] at h
            cases b with
            | false =>
                simp only [Bool.false_eq_true, if_false, Pure.pure, Except.pure,
                  Except.ok.injEq, Prod.mk.injEq] at h
                rw [← h.2]
            | true =>
                simp only [if_true, Bind.bind, Except.bind] at h
                cases h2 : pyGetItem x "value" with
                | error e => rw [h2] at h; cases h
                | ok v =>
                    simp only [h2] at h
                    cases h3 : pySetItem x "value"
                        (.str (anonymize_identifier s (pyStr v) "PHONE").1) with
                    | error e => rw [h3] at h; cases h
                    | ok d2 =>
                        simp only [h3, Pure.pure, Except.pure, Except.ok.injEq,
                          Prod.mk.injEq] at h
                        rw [← h.2]
                        exact anonymize_identifier_cfg s (pyStr v) "PHONE"
      · rw [if_neg hp] at h
        by_cases he : jsonEqStr sysv "email" = true
        · rw [if_pos he] at h
          cases h1 : pyContains x "value" with
          | error e => rw [h1] at h; cases h
          | ok b =>
              simp only [h1] at h
              cases b with
              | false =>
                  simp only [Bool.false_eq_true, if_false, Pure.pure, Except.pure,
                    Except.ok.injEq, Prod.mk.injEq] at h
                  rw [← h.2]
              | true =>
                  simp only [if_true, Bind.bind, Except.bind] at h
                  cases h2 : pyGetItem x "value" with
                  | error e => rw [h2] at h; cases h
                  | ok v =>
                      simp only [h2] at h
                      cases h3 : pySetItem x "value"
                          (.str (anonymize_identifier s (pyStr v) "EMAIL").1) with
                      | error e => rw [h3] at h; cases h
                      | ok d2 =>
                          simp only [h3, Pure.pure, Except.pure, Except.ok.injEq,
                            Prod.mk.injEq] at h
                          rw [← h.2]
                          exact anonymize_identifier_cfg s (pyStr v) "EMAIL"
        · rw [if_neg he] at h
          simp only [Pure.pure, Except.pure, Except.ok.injEq, Prod.mk.injEq] at h
          rw [← h.2]

theorem fhirAddressItem_cfg (s s' : AnonState) (x y : Json)
    (h : fhirAddressItem s x = .ok (y, s')) : cfg s' = cfg s := by
  simp only [fhirAddressItem, Bind.bind, Except.bind] at h
  cases h1 : anonListField "ADDRESS" "line" s x with
  | error e => rw [h1] at h; cases h
  | ok p1 =>
      simp only [h1] at h
      cases h2 : anonField "ADDRESS" "city" p1.2 p1.1 with
      | error e => rw [h2] at h; cases h
      | ok p2 =>
          simp only [h2] at h
          have c1 := anonListField_cfg "ADDRESS" "line" s p1.2 x p1.1 h1
          have c2 := anonField_cfg "ADDRESS" "city" p1.2 p2.2 p1.1 p2.1 h2
          have c3 := anonField_cfg "ADDRESS" "postalCode" p2.2 s' p2.1 y h
          rw [c3, c2, c1]

theorem mapItems_cfg (f : AnonState → Json → Except PyErr (Json × AnonState))
    (hf : ∀ s s' x y, f s x = .ok (y, s') → cfg s' = cfg s) :
    ∀ (st st' : AnonState) (xs ys : List Json),
      mapItems f st xs = .ok (ys, st') → cfg st' = cfg st := by
  intro st st' xs
  induction xs generalizing st with
  | nil =>
      intro ys h
      simp only [mapItems] at h
      cases h
      rfl
  | cons x rest ih =>
      intro ys h
      simp only [mapItems] at h
      obtain ⟨⟨y, s1⟩, hy, h2⟩ := except_bind_ok_inv h
      obtain ⟨⟨ys1, s2⟩, hys, h3⟩ := except_bind_ok_inv h2
      have h4 := h3
      simp only [Pure.pure, Except.pure, Except.ok.injEq, Prod.mk.injEq] at h4
      obtain ⟨rfl, rfl⟩ := h4
      rw [ih s1 _ hys, hf st s1 x y hy]

theorem forEachItem_cfg (f : AnonState → Json → Except PyErr (Json × AnonState))
    (key : String)
    (hf : ∀ s s' x y, f s x = .ok (y, s') → cfg s' = cfg s)
    (st st' : AnonState) (d d' : Json)
    (h : forEachItem f st d key = .ok (d', st')) : cfg st' = cfg st := by
  cases d with
  | obj kvs =>
      cases hk : alookup kvs key with
      | none =>
          simp [forEachItem, pyContains, hk,
            Bind.bind, Except.bind, Pure.pure, Except.pure] at h
          rw [h.2]
      | some container =>
          cases container <;>
            simp only [forEachItem, pyContains, pyGetItem, pyIter, pySetItem, hk,
              Option.isSome_some, if_true,
              Bind.bind, Except.bind, Pure.pure, Except.pure] at h
          case arr xs =>
            cases hm : mapItems f st xs with
            | error e => rw [hm] at h; cases h
            | ok p =>
                rw [hm] at h
                cases h
                exact mapItems_cfg f hf st _ xs _ hm
          case str s0 =>
            cases hm : mapItems f st (s0.data.map (fun c => Json.str (String.mk [c]))) with
            | error e => rw [hm] at h; cases h
            | ok p =>
                rw [hm] at h
                cases h
                exact mapItems_cfg f hf st _ _ _ hm
          case obj mkvs =>
            cases hm : mapItems f st (mkvs.map (fun kv => Json.str kv.1)) with
            | error e => rw [hm] at h; cases h
            | ok p =>
                rw [hm] at h
                cases h
                exact mapItems_cfg f hf st _ _ _ hm
          all_goals cases h
  | str s0 =>
      by_cases hc : pySubstr key s0
      · simp [forEachItem, pyContains, pyGetItem, hc,
          Bind.bind, Except.bind, Pure.pure, Except.pure] at h
      · simp [forEachItem, pyContains, pyGetItem, hc,
          Bind.bind, Except.bind, Pure.pure, Except.pure] at h
        rw [h.2]
  | arr xs =>
      by_cases hc : xs.any (fun z => jsonEqStr z key) = true
      · simp [forEachItem, pyContains, pyGetItem, hc,
          Bind.bind, Except.bind, Pure.pure, Except.pure] at h
      · simp [forEachItem, pyContains, pyGetItem, hc,
          Bind.bind, Except.bind, Pure.pure, Except.pure] at h
        rw [h.2]
  | null => simp [forEachItem, pyContains, Bind.bind, Except.bind] at h
  | int n => simp [forEachItem, pyContains, Bind.bind, Except.bind] at h
  | bool b => simp [forEachItem, pyContains, Bind.bind, Except.bind] at h

theorem patientIdBlock_cfg (st st' : AnonState) (d d' : Json)
    (h : patientIdBlock st d = .ok (d', st')) : cfg st' = cfg st := by
  simp only [patientIdBlock, Bind.bind, Except.bind] at h
  cases h0 : pyDictGet d "id" Json.null with
  | error e => rw [h0] at h; cases h
  | ok v =>
      simp only [h0] at h
      by_cases ht : pyTruthy v = true
      · rw [if_pos ht] at h
        cases h1 : pySetItem d "id" (.str (anonymize_identifier st (pyStr v) "ID").1) with
        | error e => rw [h1] at h; cases h
        | ok d2 =>
            simp only [h1] at h
            cases h2 : pyGetItem d2 "id" with
            | error e => rw [h2] at h; cases h
            | ok nv =>
                simp only [h2, Pure.pure, Except.pure, Except.ok.injEq,
                  Prod.mk.injEq] at h
                rw [← h.2]
                exact anonymize_identifier_cfg st (pyStr v) "ID"
      · rw [if_neg ht] at h
        simp only [Pure.pure, Except.pure, Except.ok.injEq, Prod.mk.injEq] at h
        rw [← h.2]



theorem cfg_pa {s s' : AnonState} (h : cfg s' = cfg s) :
    s'.preserve_age = s.preserve_age :=
  congrArg (fun t => t.2.1) h

theorem patientBirthDateBlock_parse (st st' : AnonState) (kvs : List (String × Json))
    (bd : String) (d0 : PyDate) (p' : Json)
    (hpa : st.preserve_age = true)
    (hbd : alookup kvs "birthDate" = some (.str bd))
    (hp : strptimeYmd bd = .ok d0)
    (h : patientBirthDateBlock st (.obj kvs) = .ok (p', st')) :
    ∃ nd, p' = .obj (aset kvs "birthDate" (.str (strftimeYmd nd))) ∧
      nd.year = d0.year ∧ validDate nd := by
  have hv0 := (strptime_valid bd d0 hp).1
  simp only [patientBirthDateBlock, pyContains, pyGetItem, pySetItem, hbd, hpa, hp,
    Option.isSome_some, Bool.and_self, Bool.and_true, Bool.true_and, if_true,
    Bind.bind, Except.bind, Pure.pure, Except.pure] at h
  split at h
  · rename_i hne
    -- year changed: replace it back
    simp only [replaceYear] at h
    split at h
    · cases h
    · rename_i v hv
      split at hv
      · rename_i hle
        cases hv
        simp only [Except.ok.injEq, Prod.mk.injEq] at h
        refine ⟨_, h.1.symm, rfl, ?_⟩
        have hv1 := addDays_valid d0 (randint (-30) 30 st).1 hv0
        exact ⟨hv1.1, hv1.2.1, hv1.2.2.1, hle⟩
      · cases hv
  · rename_i heq
    simp only [Except.ok.injEq, Prod.mk.injEq] at h
    refine ⟨_, h.1.symm, by omega, addDays_valid d0 (randint (-30) 30 st).1 hv0⟩

theorem patientBirthDateBlock_del (st st' : AnonState) (kvs : List (String × Json))
    (p' : Json)
    (hpa : st.preserve_age = false)
    (hbd : (alookup kvs "birthDate").isSome = true)
    (h : patientBirthDateBlock st (.obj kvs) = .ok (p', st')) :
    p' = .obj (adel kvs "birthDate") := by
  simp only [patientBirthDateBlock, pyContains, pyDelItem, hbd, hpa,
    Bind.bind, Except.bind, Pure.pure, Except.pure, Bool.and_false, Bool.and_true,
    Bool.not_false, if_true, Bool.false_eq_true, if_false] at h
  simp only [Except.ok.injEq, Prod.mk.injEq] at h
  exact h.1.symm



theorem struct_bd {kvs : List (String × Json)} {key : String} {p : Json}
    (hs : p = .obj kvs ∨ ∃ v, p = .obj (aset kvs key v))
    (hk : key ≠ "birthDate") :
    ∃ kvs2, p = .obj kvs2 ∧ alookup kvs2 "birthDate" = alookup kvs "birthDate" ∧
      countKey kvs2 "birthDate" = countKey kvs "birthDate" := by
  rcases hs with rfl | ⟨v, rfl⟩
  · exact ⟨kvs, rfl, rfl, rfl⟩
  · exact ⟨_, rfl, alookup_aset_ne kvs key "birthDate" v hk,
      countKey_aset_ne kvs "birthDate" key v (Ne.symm hk)⟩

/-- C8: with `preserve_age` on, a parsed `birthDate` whose year has four
digits is replaced by a date string that again parses and keeps the year;
with `preserve_age` off, the output Patient has no `birthDate` key (the input
dict carries the key once). -/
theorem C8_amended (st st' : AnonState) (kvs : List (String × Json))
    (bd : String) (d0 : PyDate) (p' : Json)
    (hbd : alookup kvs "birthDate" = some (.str bd)) :
    (st.preserve_age = true → strptimeYmd bd = .ok d0 →
      1000 ≤ d0.year → d0.year ≤ 9999 →
      anonymize_patient st (.obj kvs) = .ok (p', st') →
      ∃ bd' d', jGet? p' "birthDate" = some (.str bd') ∧
        strptimeYmd bd' = .ok d' ∧ d'.year = d0.year) ∧
    (st.preserve_age = false → countKey kvs "birthDate" ≤ 1 →
      anonymize_patient st (.obj kvs) = .ok (p', st') →
      jGet? p' "birthDate" = none) := by
  constructor
  · intro hpa hp hy1 hy2 h
    simp only [anonymize_patient, Bind.bind, Except.bind] at h
    cases h1 : patientIdBlock st (.obj kvs) with
    | error e => rw [h1] at h; cases h
    | ok p1 =>
      simp only [h1] at h
      cases h2 : forEachItem (anonField "ID" "value") p1.2 p1.1 "identifier" with
      | error e => rw [h2] at h; cases h
      | ok p2 =>
        simp only [h2] at h
        cases h3 : forEachItem fhirNameItem p2.2 p2.1 "name" with
        | error e => rw [h3] at h; cases h
        | ok p3 =>
          simp only [h3] at h
          cases h4 : forEachItem fhirTelecomItem p3.2 p3.1 "telecom" with
          | error e => rw [h4] at h; cases h
          | ok p4 =>
            simp only [h4] at h
            cases h5 : patientBirthDateBlock p4.2 p4.1 with
            | error e => rw [h5] at h; cases h
            | ok p5 =>
              simp only [h5] at h
              obtain ⟨kvs1, ek1, el1, ec1⟩ :=
                struct_bd (patientIdBlock_struct st p1.2 kvs p1.1 h1) (by decide)
              rw [ek1] at h2
              obtain ⟨kvs2, ek2, el2, ec2⟩ :=
                struct_bd (forEachItem_struct _ p1.2 p2.2 kvs1 "identifier" p2.1 h2)
                  (by decide)
              rw [ek2] at h3
              obtain ⟨kvs3, ek3, el3, ec3⟩ :=
                struct_bd (forEachItem_struct _ p2.2 p3.2 kvs2 "name" p3.1 h3)
                  (by decide)
              rw [ek3] at h4
              obtain ⟨kvs4, ek4, el4, ec4⟩ :=
                struct_bd (forEachItem_struct _ p3.2 p4.2 kvs3 "telecom" p4.1 h4)
                  (by decide)
              have hl4 : alookup kvs4 "birthDate" = some (.str bd) := by
                rw [el4, el3, el2, el1, hbd]
              have hpa4 : p4.2.preserve_age = true := by
                have q1 := cfg_pa (patientIdBlock_cfg st p1.2 (.obj kvs) p1.1 h1)
                have q2 := cfg_pa (forEachItem_cfg _ "identifier"
                  (fun s s' x y hh => anonField_cfg "ID" "value" s s' x y hh)
                  p1.2 p2.2 (.obj kvs1) p2.1 h2)
                have q3 := cfg_pa (forEachItem_cfg _ "name"
                  (fun s s' x y hh => fhirNameItem_cfg s s' x y hh)
                  p2.2 p3.2 (.obj kvs2) p3.1 h3)
                have q4 := cfg_pa (forEachItem_cfg _ "telecom"
                  (fun s s' x y hh => fhirTelecomItem_cfg s s' x y hh)
                  p3.2 p4.2 (.obj kvs3) p4.1 h4)
                rw [q4, q3, q2, q1, hpa]
              rw [ek4] at h5
              obtain ⟨nd, ek5, hyr, hvnd⟩ :=
                patientBirthDateBlock_parse p4.2 p5.2 kvs4 bd d0 p5.1 hpa4 hl4 hp h5
              rw [ek5] at h
              rcases forEachItem_struct _ p5.2 st' _ "address" p' h with hk6 | ⟨v, hk6⟩
              · refine ⟨strftimeYmd nd, nd, ?_, ?_, hyr⟩
                · rw [hk6]
                  simp only [jGet?, alookup_aset_self]
                · exact strftime_strptime nd hvnd (by omega) (by omega)
              · refine ⟨strftimeYmd nd, nd, ?_, ?_, hyr⟩
                · rw [hk6]
                  simp only [jGet?]
                  rw [alookup_aset_ne _ _ _ _ (by decide), alookup_aset_self]
                · exact strftime_strptime nd hvnd (by omega) (by omega)
  · intro hpa hcnt h
    simp only [anonymize_patient, Bind.bind, Except.bind] at h
    cases h1 : patientIdBlock st (.obj kvs) with
    | error e => rw [h1] at h; cases h
    | ok p1 =>
      simp only [h1] at h
      cases h2 : forEachItem (anonField "ID" "value") p1.2 p1.1 "identifier" with
      | error e => rw [h2] at h; cases h
      | ok p2 =>
        simp only [h2] at h
        cases h3 : forEachItem fhirNameItem p2.2 p2.1 "name" with
        | error e => rw [h3] at h; cases h
        | ok p3 =>
          simp only [h3] at h
          cases h4 : forEachItem fhirTelecomItem p3.2 p3.1 "telecom" with
          | error e => rw [h4] at h; cases h
          | ok p4 =>
            simp only [h4] at h
            cases h5 : patientBirthDateBlock p4.2 p4.1 with
            | error e => rw [h5] at h; cases h
            | ok p5 =>
              simp only [h5] at h
              obtain ⟨kvs1, ek1, el1, ec1⟩ :=
                struct_bd (patientIdBlock_struct st p1.2 kvs p1.1 h1) (by decide)
              rw [ek1] at h2
              obtain ⟨kvs2, ek2, el2, ec2⟩ :=
                struct_bd (forEachItem_struct _ p1.2 p2.2 kvs1 "identifier" p2.1 h2)
                  (by decide)
              rw [ek2] at h3
              obtain ⟨kvs3, ek3, el3, ec3⟩ :=
                struct_bd (forEachItem_struct _ p2.2 p3.2 kvs2 "name" p3.1 h3)
                  (by decide)
              rw [ek3] at h4
              obtain ⟨kvs4, ek4, el4, ec4⟩ :=
                struct_bd (forEachItem_struct _ p3.2 p4.2 kvs3 "telecom" p4.1 h4)
                  (by decide)
              have hl4 : alookup kvs4 "birthDate" = some (.str bd) := by
                rw [el4, el3, el2, el1, hbd]
              have hc4 : countKey kvs4 "birthDate" ≤ 1 := by
                rw [ec4, ec3, ec2, ec1]; exact hcnt
              have hpa4 : p4.2.preserve_age = false := by
                have q1 := cfg_pa (patientIdBlock_cfg st p1.2 (.obj kvs) p1.1 h1)
                have q2 := cfg_pa (forEachItem_cfg _ "identifier"
                  (fun s s' x y hh => anonField_cfg "ID" "value" s s' x y hh)
                  p1.2 p2.2 (.obj kvs1) p2.1 h2)
                have q3 := cfg_pa (forEachItem_cfg _ "name"
                  (fun s s' x y hh => fhirNameItem_cfg s s' x y hh)
                  p2.2 p3.2 (.obj kvs2) p3.1 h3)
                have q4 := cfg_pa (forEachItem_cfg _ "telecom"
                  (fun s s' x y hh => fhirTelecomItem_cfg s s' x y hh)
                  p3.2 p4.2 (.obj kvs3) p4.1 h4)
                rw [q4, q3, q2, q1, hpa]
              rw [ek4] at h5
              have ek5 := patientBirthDateBlock_del p4.2 p5.2 kvs4 p5.1 hpa4
                (by rw [hl4]; rfl) h5
              rw [ek5] at h
              have hnone : alookup (adel kvs4 "birthDate") "birthDate" = none :=
                alookup_adel_once kvs4 "birthDate" hc4
              rcases forEachItem_struct _ p5.2 st' _ "address" p' h with hk6 | ⟨v, hk6⟩
              · rw [hk6]
                simp only [jGet?]
                exact hnone
              · rw [hk6]
                simp only [jGet?]
                rw [alookup_aset_ne _ _ _ _ (by decide)]
                exact hnone



/-- C8 counterexample: `"0500-01-02"` parses (year 500), but its anonymized
output `"500-01-02"` — glibc `%Y` prints the year unpadded — no longer parses
as `%Y-%m-%d`, whose `%Y` demands exactly four digits. -/
theorem C8_counterexample :
    strptimeYmd "0500-01-02" = .ok ⟨500, 1, 2⟩ ∧
    (anonymize_fhir (mkAnonymizer "s" true true (fun _ => 30))
        (c4bundle "0500-01-02")).map Prod.fst = .ok (c4bundle "500-01-02") ∧
    strptimeYmd "500-01-02" = .error .valueError :=
  ⟨rfl, rfl, rfl⟩

/-- Witness for C8 amended: birthDate `"1990-06-15"` under a zero-offset
draw stays `"1990-06-15"` (year kept) with `preserve_age`, and the key is
deleted without it. -/
theorem C8_amended_witness :
    (∃ bd' d', jGet? (Json.obj [("birthDate", Json.str "1990-06-15")]) "birthDate"
        = some (.str bd') ∧ strptimeYmd bd' = .ok d' ∧ d'.year = 1990) ∧
    jGet? (Json.obj ([] : List (String × Json))) "birthDate" = none := by
  constructor
  · exact (C8_amended (mkAnonymizer "w" true true (fun _ => 30))
      { mkAnonymizer "w" true true (fun _ => 30) with rngIdx := 1 }
      [("birthDate", Json.str "1990-06-15")] "1990-06-15" ⟨1990, 6, 15⟩
      (Json.obj [("birthDate", Json.str "1990-06-15")]) rfl).1
      rfl rfl (by decide) (by decide) (by rfl)
  · exact (C8_amended (mkAnonymizer "w" false true (fun _ => 30))
      (mkAnonymizer "w" false true (fun _ => 30))
      [("birthDate", Json.str "1990-06-15")] "1990-06-15" ⟨1990, 6, 15⟩
      (Json.obj ([] : List (String × Json))) rfl).2
      rfl (by decide) (by rfl)



theorem idKey_ne_patKey (P : String) : ("ID:" ++ P) ≠ ("Patient/" ++ P) := by
  intro heq
  have h0 := congrArg String.data heq
  rw [str_data_append, str_data_append] at h0
  have h2 : (['I', 'D', ':'] ++ P.data : List Char)
      = ['P', 'a', 't', 'i', 'e', 'n', 't', '/'] ++ P.data := h0
  simp at h2

theorem C1_amended (salt P : String) (pa pg : Bool) (rng : Nat → Int) (hP : P ≠ "") :
    (anonymize_fhir (mkAnonymizer salt pa pg rng) (c1ordered P)).map Prod.fst
      = .ok (c1orderedOut salt P) := by
  have hPt : pyTruthy (Json.str P) = true := by
    simp [pyTruthy, hP]
  have hA := anonId_ID (⟨salt, pa, pg, [], rng, 0⟩ : AnonState) P rfl
  have kne := idKey_ne_patKey P
  simp [anonymize_fhir, processEntries, processEntry, anonymize_patient, patientIdBlock,
    anonymize_observation, anonField, subjectRefBlock, forEachItem, refRewriteItem,
    patientBirthDateBlock, mapItems,
    pyDictGet, pyContains, pyGetItem, pySetItem, pyIter, pyStr, vaultContains, vaultGet,
    alookup, aset, jsonEqStr, hPt, hA, kne, mkAnonymizer,
    c1ordered, c1patEntry, c1refEntry, c1orderedOut, Except.map,
    Bind.bind, Except.bind, Pure.pure, Except.pure]



/-- C1 counterexample: when the referencing Observation precedes the Patient
in the entry list, its `subject.reference` is left as `"Patient/p1"` even
though the Patient's id becomes `"ID-c57195a13a91"`: the promised equality
`reference = "Patient/" + new_id` fails. -/
theorem C1_counterexample :
    (anonymize_fhir (mkAnonymizer "s" true true (fun _ => 0)) c1bundle).map Prod.fst
      = .ok (.obj [("resourceType", .str "Bundle"),
          ("entry", .arr [c1refEntry "p1",
            .obj [("resource", .obj [("resourceType", .str "Patient"),
                  ("id", .str "ID-c57195a13a91")])]])]) ∧
    ("Patient/p1" : String) ≠ "Patient/" ++ "ID-c57195a13a91" :=
  ⟨rfl, by decide⟩

/-- Witness for C1 amended at salt `"s"`, patient id `"p1"`. -/
theorem C1_amended_witness :
    (anonymize_fhir (mkAnonymizer "s" true true (fun _ => 0)) (c1ordered "p1")).map
        Prod.fst = .ok (c1orderedOut "s" "p1") :=
  C1_amended "s" "p1" true true (fun _ => 0) (by decide)


end HealthDataGateway
